import Mathlib

/-!
Verification of the indicator computation engine of
`backend/chart-engine/utils.py` (trade-tracker chart engine).

Modelling conventions (shallow embedding, translated from the Python source):

* numpy float arrays of prices are modelled as `List ℚ`; all arithmetic in
  the source is exact rational arithmetic except for the square root taken
  by the Bollinger rolling standard deviation, so the development is
  parametric in a function `sq : ℚ → ℚ` interpreting that square root
  (no theorem below depends on the interpretation).
* a NaN cell of a pandas column is modelled as `none : Option ℚ`;
  columns produced as plain numpy arrays (never containing NaN for the
  parameter ranges the orchestrator's gates admit) are modelled as `List ℚ`
  and injected with `Option.some` when attached to the frame.
* out-of-range numpy reads, and the IEEE junk the source produces for a
  zero `period` (division of a numpy scalar by zero yields inf/nan with a
  RuntimeWarning, not an exception), are modelled by total functions:
  `nth` returns 0 out of range and `ℚ` division by zero returns 0.  No
  theorem below observes those junk regions; every claim carries the
  sufficiency-gate hypotheses under which the Python code is exact.
* the Python exceptions that ARE reachable through `add_indicators` are
  modelled with `Except String`: `pandas.Series.ewm` validates
  `span >= 1` (EMA and MACD), and `np.max` / `np.min` of an empty slice
  raise (Stochastic and Williams %R with a zero period).
-/

namespace ChartEngine

/-- `xs[i]` with numpy-style reads modelled totally: 0 out of range. -/
def nth (xs : List ℚ) (i : ℕ) : ℚ := xs.getD i 0

/-- The Python slice `xs[i-(w-1) : i+1]`, the trailing window of width `w`
ending at index `i` (empty when `w = 0`). -/
def windowAt (xs : List ℚ) (i w : ℕ) : List ℚ := (xs.take (i+1)).drop (i+1-w)

/-- `np.mean` of a list (mean of the empty list is modelled as 0; the
source only takes means of nonempty slices outside the junk regions). -/
def mean (xs : List ℚ) : ℚ := xs.sum / xs.length

/-- `np.max` of a list (0 for the empty list, which in numpy raises; the
callers that can reach the empty case are modelled with `Except`). -/
def maxOf : List ℚ → ℚ
  | [] => 0
  | x :: xs => xs.foldl max x

/-- `np.min` of a list, same conventions as `maxOf`. -/
def minOf : List ℚ → ℚ
  | [] => 0
  | x :: xs => xs.foldl min x

/-! ### Simple moving average (`calculate_sma`, utils.py lines 12-14)

`pd.Series(prices).rolling(window=period).mean().values`: NaN until the
window is full, afterwards the arithmetic mean of the trailing window.
(`rolling(0)` yields an all-NaN column.) -/

/-- Pandas `rolling(w).mean()` over a series. -/
def rollingMean (xs : List ℚ) (w : ℕ) : List (Option ℚ) :=
  (List.range xs.length).map fun i =>
    if w ≠ 0 ∧ w ≤ i + 1 then some (mean (windowAt xs i w)) else none

/-- `calculate_sma` from utils.py. -/
def calculate_sma (prices : List ℚ) (period : ℕ) : List (Option ℚ) :=
  rollingMean prices period

/-! ### Exponential moving average (`calculate_ema`, utils.py lines 16-18)

`pd.Series(prices).ewm(span=period, adjust=False).mean().values`:
`y[0] = x[0]`, `y[i] = (1-α)·y[i-1] + α·x[i]` with `α = 2/(span+1)`;
pandas validates `span >= 1` and raises a `ValueError` otherwise. -/

/-- The `adjust=False` exponentially weighted mean as an index recurrence. -/
def ewmAt (α : ℚ) (x : ℕ → ℚ) : ℕ → ℚ
  | 0 => x 0
  | i + 1 => (1 - α) * ewmAt α x i + α * x (i + 1)

/-- `ewm(span, adjust=False).mean()` over a list. -/
def ewmMean (α : ℚ) (xs : List ℚ) : List ℚ :=
  (List.range xs.length).map (ewmAt α (nth xs))

/-- `calculate_ema` from utils.py; errors exactly when pandas `ewm`
rejects the span. -/
def calculate_ema (prices : List ℚ) (period : ℕ) : Except String (List ℚ) :=
  if period < 1 then .error "span must satisfy: span >= 1"
  else .ok (ewmMean (2 / ((period : ℚ) + 1)) prices)

/-! ### Bollinger bands (`calculate_bollinger_bands`, utils.py lines 20-26)

`rolling(window=period).std()` is a sample (ddof = 1) standard deviation,
NaN while the window is not full and also for windows of a single
observation; its square root is interpreted by the parameter `sq`. -/

/-- Sample standard deviation of a full window (`pandas` `ddof = 1`). -/
def sampleStd (sq : ℚ → ℚ) (xs : List ℚ) : ℚ :=
  sq (((xs.map fun x => (x - mean xs) ^ 2).sum) / ((xs.length : ℚ) - 1))

/-- Pandas `rolling(w).std()` over a series. -/
def rollingStd (sq : ℚ → ℚ) (xs : List ℚ) (w : ℕ) : List (Option ℚ) :=
  (List.range xs.length).map fun i =>
    if 2 ≤ w ∧ w ≤ i + 1 then some (sampleStd sq (windowAt xs i w)) else none

/-- NaN-propagating cell arithmetic used when numpy combines a NaN-bearing
column with another column. -/
def cellMap2 (f : ℚ → ℚ → ℚ) : Option ℚ → Option ℚ → Option ℚ
  | some a, some b => some (f a b)
  | _, _ => none

/-- `calculate_bollinger_bands` from utils.py: `(middle, upper, lower)`. -/
def calculate_bollinger_bands (sq : ℚ → ℚ) (prices : List ℚ) (period : ℕ)
    (std_dev : ℚ) : List (Option ℚ) × List (Option ℚ) × List (Option ℚ) :=
  let sma := calculate_sma prices period
  let rstd := rollingStd sq prices period
  (sma,
   List.zipWith (cellMap2 fun s r => s + r * std_dev) sma rstd,
   List.zipWith (cellMap2 fun s r => s - r * std_dev) sma rstd)

/-! ### MACD (`calculate_macd`, utils.py lines 28-35) -/

/-- `calculate_macd` from utils.py: `(macd, signal, histogram)`; an
invalid span in any of the three `ewm` calls raises. -/
def calculate_macd (prices : List ℚ) (fast_period slow_period signal_period : ℕ) :
    Except String (List ℚ × List ℚ × List ℚ) := do
  let fast_ema ← calculate_ema prices fast_period
  let slow_ema ← calculate_ema prices slow_period
  let macd_line := List.zipWith (fun a b => a - b) fast_ema slow_ema
  let macd_signal ← calculate_ema macd_line signal_period
  let macd_histogram := List.zipWith (fun a b => a - b) macd_line macd_signal
  return (macd_line, macd_signal, macd_histogram)

/-! ### Wilder-style smoothing helper

utils.py repeats the pattern `a[start] = seed;
a[i] = (a[i-1]*(period-1) + x[i])/period for i > start`, the entries
before `start` staying at the `np.zeros_like` value 0.  `calculate_rsi`
uses it with `start = period`, `calculate_atr` with `start = period-1`,
and `calculate_adx` for the final ADX smoothing with `start = 2*period-1`. -/

/-- Carried-state Wilder smoothing: 0 before `start`, `seed` at `start`,
then `(prev*(period-1) + x i)/period`. -/
def wilderFrom (x : ℕ → ℚ) (period : ℚ) (start : ℕ) (seed : ℚ) : ℕ → ℚ
  | 0 => if start = 0 then seed else 0
  | i + 1 =>
    if i + 1 < start then 0
    else if i + 1 = start then seed
    else (wilderFrom x period start seed i * (period - 1) + x (i + 1)) / period

/-! ### RSI (`calculate_rsi`, utils.py lines 37-71)

`deltas = np.append(np.diff(prices), 0)`; gains/losses are the positive
and negative parts; the averages are seeded at index `period` with the
simple mean of the first `period` gains/losses and Wilder-smoothed after
that; output is `np.zeros_like(prices)` with indices `≥ period` set.
(For `len(prices) ≤ period` the numpy write `avg_gains[period] = …`
raises an `IndexError`; every property below assumes the orchestrator's
gate `len ≥ period+1`.) -/

/-- `deltas[i]` of `calculate_rsi` (price change, 0 at the last index). -/
def rsiDelta (prices : List ℚ) (i : ℕ) : ℚ :=
  if i + 1 < prices.length then nth prices (i + 1) - nth prices i else 0

/-- `gains[i]` of `calculate_rsi`. -/
def rsiGain (prices : List ℚ) (i : ℕ) : ℚ := max (rsiDelta prices i) 0

/-- `losses[i]` of `calculate_rsi`. -/
def rsiLoss (prices : List ℚ) (i : ℕ) : ℚ := max (-(rsiDelta prices i)) 0

/-- `avg_gains` of `calculate_rsi`. -/
def rsiAvgGain (prices : List ℚ) (period : ℕ) : ℕ → ℚ :=
  wilderFrom (rsiGain prices) period period
    (((List.range period).map (rsiGain prices)).sum / period)

/-- `avg_losses` of `calculate_rsi`. -/
def rsiAvgLoss (prices : List ℚ) (period : ℕ) : ℕ → ℚ :=
  wilderFrom (rsiLoss prices) period period
    (((List.range period).map (rsiLoss prices)).sum / period)

/-- `calculate_rsi` from utils.py. -/
def calculate_rsi (prices : List ℚ) (period : ℕ) : List ℚ :=
  (List.range prices.length).map fun i =>
    if i < period then 0
    else if rsiAvgLoss prices period i = 0 then 100
    else 100 - 100 / (1 + rsiAvgGain prices period i / rsiAvgLoss prices period i)

/-! ### ATR (`calculate_atr`, utils.py lines 73-88) -/

/-- The true range `tr[i]`: at index 0 the `insert`ed previous-close terms
are 0, so `tr[0] = max (high[0]-low[0]) 0`. -/
def trueRange (high low close : List ℚ) : ℕ → ℚ
  | 0 => max (nth high 0 - nth low 0) 0
  | i + 1 => max (nth high (i + 1) - nth low (i + 1))
      (max |nth high (i + 1) - nth close i| |nth low (i + 1) - nth close i|)

/-- `calculate_atr` from utils.py: seeded at `period-1` with the mean of
the first `period` true ranges, Wilder-smoothed afterwards, zeros before. -/
def calculate_atr (high low close : List ℚ) (period : ℕ) : List ℚ :=
  (List.range close.length).map
    (wilderFrom (trueRange high low close) period (period - 1)
      (((List.range period).map (trueRange high low close)).sum / period))

/-! ### Stochastic oscillator (`calculate_stochastic`, utils.py lines 90-114)

With `k_period = 0` the loop `range(k_period-1, n)` starts at -1 and the
first `np.max` is taken over an empty slice, which raises. -/

/-- `calculate_stochastic` from utils.py: `(k, d)`. -/
def calculate_stochastic (high low close : List ℚ) (k_period d_period slowing : ℕ) :
    Except String (List ℚ × List (Option ℚ)) :=
  if k_period = 0 then
    .error "zero-size array to reduction operation maximum which has no identity"
  else
    let k_raw : List ℚ := (List.range close.length).map fun i =>
      if k_period ≤ i + 1 then
        let highest_high := maxOf (windowAt high i k_period)
        let lowest_low := minOf (windowAt low i k_period)
        if highest_high ≠ lowest_low then
          (nth close i - lowest_low) / (highest_high - lowest_low) * 100
        else 50
      else 0
    let k : List ℚ :=
      if 1 < slowing then
        (List.range close.length).map fun i =>
          if k_period + slowing ≤ i + 2 then mean (windowAt k_raw i slowing) else 0
      else k_raw
    .ok (k, calculate_sma k d_period)

/-! ### WMA (`calculate_wma`, utils.py lines 116-125) -/

/-- `calculate_wma` from utils.py: linear weights `1..period` over the
trailing window, zeros during warm-up. -/
def calculate_wma (prices : List ℚ) (period : ℕ) : List ℚ :=
  let weights : List ℚ := (List.range period).map fun k => (k : ℚ) + 1
  let sum_weights := weights.sum
  (List.range prices.length).map fun i =>
    if period ≤ i + 1 then
      (List.zipWith (fun p w => p * w) (windowAt prices i period) weights).sum / sum_weights
    else 0

/-! ### VWAP (`calculate_vwap`, utils.py lines 127-150) -/

/-- `calculate_vwap` from utils.py.  Without a period: cumulative
price×volume over cumulative volume, the divisor replaced by 1 when the
cumulative volume is not positive.  With a period: rolling sums over the
trailing window, falling back to the raw price when the window volume is
not positive; zeros during warm-up. -/
def calculate_vwap (prices volumes : List ℚ) (period : Option ℕ) : List ℚ :=
  let price_volume : List ℚ := List.zipWith (fun p v => p * v) prices volumes
  match period with
  | none =>
    (List.range prices.length).map fun i =>
      let cumulative_pv := ((List.range (i + 1)).map (nth price_volume)).sum
      let cumulative_volume := ((List.range (i + 1)).map (nth volumes)).sum
      cumulative_pv / (if 0 < cumulative_volume then cumulative_volume else 1)
  | some p =>
    (List.range prices.length).map fun i =>
      if p ≤ i + 1 then
        if 0 < (windowAt volumes i p).sum then
          (windowAt price_volume i p).sum / (windowAt volumes i p).sum
        else nth prices i
      else 0

/-! ### Parabolic SAR (`calculate_parabolic_sar`, utils.py lines 152-209) -/

/-- The carried state of the Parabolic SAR scan: the trend flag, the
extreme point, the acceleration factor and the SAR values produced so far
(in reverse order). -/
structure SarState where
  trend : Int
  extreme_point : ℚ
  af : ℚ
  sars : List ℚ
deriving DecidableEq

/-- One iteration of the Parabolic SAR loop at index `i ≥ 1`. -/
def psarStep (high low : List ℚ) (af_start af_increment af_max : ℚ)
    (st : SarState) (i : ℕ) : SarState :=
  let prev := st.sars.headD 0
  let sar0 := prev + st.af * (st.extreme_point - prev)
  if st.trend = 1 then
    let sar1 := if 2 ≤ i then min sar0 (min (nth low (i - 1)) (nth low (i - 2)))
                else min sar0 (nth low (i - 1))
    if nth low i < sar1 then
      { trend := -1, extreme_point := nth low i, af := af_start,
        sars := st.extreme_point :: st.sars }
    else if nth high i > st.extreme_point then
      { trend := 1, extreme_point := nth high i, af := min (st.af + af_increment) af_max,
        sars := sar1 :: st.sars }
    else { st with sars := sar1 :: st.sars }
  else
    let sar1 := if 2 ≤ i then max sar0 (max (nth high (i - 1)) (nth high (i - 2)))
                else max sar0 (nth high (i - 1))
    if nth high i > sar1 then
      { trend := 1, extreme_point := nth high i, af := af_start,
        sars := st.extreme_point :: st.sars }
    else if nth low i < st.extreme_point then
      { trend := -1, extreme_point := nth low i, af := min (st.af + af_increment) af_max,
        sars := sar1 :: st.sars }
    else { st with sars := sar1 :: st.sars }

/-- `calculate_parabolic_sar` from utils.py. -/
def calculate_parabolic_sar (high low close : List ℚ)
    (af_start af_increment af_max : ℚ) : List ℚ :=
  if close.length < 2 then List.replicate close.length 0
  else
    let init : SarState :=
      { trend := 1, extreme_point := nth high 0, af := af_start, sars := [nth low 0] }
    let final := (List.range (close.length - 1)).foldl
      (fun st k => psarStep high low af_start af_increment af_max st (k + 1)) init
    final.sars.reverse

/-! ### Williams %R (`calculate_williams_r`, utils.py lines 211-225)

As for the stochastic oscillator, a zero period makes the first `np.max`
reduce an empty slice, which raises. -/

/-- `calculate_williams_r` from utils.py. -/
def calculate_williams_r (high low close : List ℚ) (period : ℕ) :
    Except String (List ℚ) :=
  if period = 0 then
    .error "zero-size array to reduction operation maximum which has no identity"
  else
    .ok ((List.range close.length).map fun i =>
      if period ≤ i + 1 then
        let highest_high := maxOf (windowAt high i period)
        let lowest_low := minOf (windowAt low i period)
        if highest_high ≠ lowest_low then
          (highest_high - nth close i) / (highest_high - lowest_low) * (-100)
        else -50
      else 0)

/-! ### CCI (`calculate_cci`, utils.py lines 227-248) -/

/-- The typical price `(high+low+close)/3`. -/
def typicalPrice (high low close : List ℚ) (i : ℕ) : ℚ :=
  (nth high i + nth low i + nth close i) / 3

/-- `calculate_cci` from utils.py (0.015 = 3/200). -/
def calculate_cci (high low close : List ℚ) (period : ℕ) : List ℚ :=
  let tp : List ℚ := (List.range close.length).map (typicalPrice high low close)
  let tp_sma : ℕ → ℚ := fun i => if period ≤ i + 1 then mean (windowAt tp i period) else 0
  (List.range close.length).map fun i =>
    if period ≤ i + 1 then
      let mean_dev := mean ((windowAt tp i period).map fun t => |t - tp_sma i|)
      if mean_dev = 0 then 0
      else (nth tp i - tp_sma i) / (3 / 200 * mean_dev)
    else 0

/-! ### MFI (`calculate_mfi`, utils.py lines 250-285) -/

/-- `calculate_mfi` from utils.py: positive/negative money flow summed
over the trailing window; 100 when the negative sum is zero. -/
def calculate_mfi (high low close volume : List ℚ) (period : ℕ) : List ℚ :=
  let n := close.length
  let tp := typicalPrice high low close
  let positive_flow : List ℚ := (List.range n).map fun i =>
    if i ≠ 0 ∧ tp i > tp (i - 1) then tp i * nth volume i else 0
  let negative_flow : List ℚ := (List.range n).map fun i =>
    if i ≠ 0 ∧ tp i < tp (i - 1) then tp i * nth volume i else 0
  (List.range n).map fun i =>
    if period ≤ i then
      let positive_sum := (windowAt positive_flow i period).sum
      let negative_sum := (windowAt negative_flow i period).sum
      if negative_sum = 0 then 100
      else 100 - 100 / (1 + positive_sum / negative_sum)
    else 0

/-! ### OBV (`calculate_obv`, utils.py lines 287-303) -/

/-- The OBV recurrence. -/
def obvAt (close volume : List ℚ) : ℕ → ℚ
  | 0 => 0
  | i + 1 =>
    if nth close (i + 1) > nth close i then obvAt close volume i + nth volume (i + 1)
    else if nth close (i + 1) < nth close i then obvAt close volume i - nth volume (i + 1)
    else obvAt close volume i

/-- `calculate_obv` from utils.py. -/
def calculate_obv (close volume : List ℚ) : List ℚ :=
  (List.range close.length).map (obvAt close volume)

/-! ### ADX (`calculate_adx`, utils.py lines 305-391) -/

/-- `plus_dm[i]` of `calculate_adx` (0 at index 0). -/
def plusDM (high low : List ℚ) : ℕ → ℚ
  | 0 => 0
  | i + 1 =>
    let high_diff := nth high (i + 1) - nth high i
    let low_diff := nth low i - nth low (i + 1)
    if high_diff > low_diff ∧ high_diff > 0 then high_diff else 0

/-- `minus_dm[i]` of `calculate_adx` (0 at index 0). -/
def minusDM (high low : List ℚ) : ℕ → ℚ
  | 0 => 0
  | i + 1 =>
    let high_diff := nth high (i + 1) - nth high i
    let low_diff := nth low i - nth low (i + 1)
    if low_diff > high_diff ∧ low_diff > 0 then low_diff else 0

/-- `tr[i]` of `calculate_adx` (0 at index 0, unlike `calculate_atr`). -/
def adxTR (high low close : List ℚ) : ℕ → ℚ
  | 0 => 0
  | i + 1 => max (nth high (i + 1) - nth low (i + 1))
      (max |nth high (i + 1) - nth close i| |nth low (i + 1) - nth close i|)

/-- The ADX smoothing `s[period] = Σ x[1..period]`,
`s[i] = s[i-1] - s[i-1]/period + x[i]`, zeros before `period`. -/
def adxSmooth (x : ℕ → ℚ) (period : ℕ) : ℕ → ℚ
  | 0 => if period = 0 then ((List.range period).map fun j => x (j + 1)).sum else 0
  | i + 1 =>
    if i + 1 < period then 0
    else if i + 1 = period then ((List.range period).map fun j => x (j + 1)).sum
    else adxSmooth x period i - adxSmooth x period i / period + x (i + 1)

/-- `calculate_adx` from utils.py: `(adx, plus_di, minus_di)`. -/
def calculate_adx (high low close : List ℚ) (period : ℕ) :
    List ℚ × List ℚ × List ℚ :=
  let n := close.length
  let str := adxSmooth (adxTR high low close) period
  let spdm := adxSmooth (plusDM high low) period
  let smdm := adxSmooth (minusDM high low) period
  let plus_di : ℕ → ℚ := fun i =>
    if period ≤ i then (if str i = 0 then 0 else 100 * spdm i / str i) else 0
  let minus_di : ℕ → ℚ := fun i =>
    if period ≤ i then (if str i = 0 then 0 else 100 * smdm i / str i) else 0
  let dx : ℕ → ℚ := fun i =>
    if period ≤ i then
      (if plus_di i + minus_di i = 0 then 0
       else 100 * |plus_di i - minus_di i| / (plus_di i + minus_di i))
    else 0
  let adx : ℕ → ℚ :=
    if 2 * period ≤ n then
      wilderFrom dx period (2 * period - 1)
        (((List.range period).map fun j => dx (period + j)).sum / period)
    else fun _ => 0
  ((List.range n).map adx, (List.range n).map plus_di, (List.range n).map minus_di)

/-! ### The data frame and the indicator requests

`add_indicators` receives a pandas DataFrame with the OHLCV columns and a
list of indicator configurations `{'type': …, 'params': {…}}`.  The frame
is modelled as the list of OHLCV bars (which no indicator branch ever
modifies and which carry no NaN) together with the ordered list of added
indicator columns; pandas column assignment overwrites an existing column
in place and appends a new one at the end.  Parameters are modelled as
natural (for periods) or rational (for `stdDev` and the SAR factors)
values, each optional with the `dict.get` default applied at the use
site. -/

/-- One OHLCV bar of the input frame. -/
structure Bar where
  openPrice : ℚ
  high : ℚ
  low : ℚ
  close : ℚ
  volume : ℚ
deriving DecidableEq

/-- The `params` mapping of one indicator request. -/
structure Params where
  period : Option ℕ := none
  stdDev : Option ℚ := none
  fastPeriod : Option ℕ := none
  slowPeriod : Option ℕ := none
  signalPeriod : Option ℕ := none
  kPeriod : Option ℕ := none
  dPeriod : Option ℕ := none
  slowing : Option ℕ := none
  afStart : Option ℚ := none
  afIncrement : Option ℚ := none
  afMax : Option ℚ := none
deriving DecidableEq

/-- One indicator request `{'type': …, 'params': …}`. -/
structure Req where
  type : String
  params : Params
deriving DecidableEq

/-- The DataFrame: the OHLCV bars plus the named indicator columns added
so far (a NaN cell is `none`). -/
structure Frame where
  bars : List Bar
  cols : List (String × List (Option ℚ))
deriving DecidableEq

/-- `indicator.get('type', '').lower()`: core `String.toLower` is exactly
`Char.toLower` mapped over the characters (spelled out over the character
list so that it evaluates by `decide`); the catalog's type strings are all
ASCII, where Python's `str.lower` agrees. -/
def strLower (s : String) : String := String.mk (s.data.map Char.toLower)

/-- Pandas column assignment `df[name] = vals`: overwrite in place when
the column exists, append otherwise. -/
def setCol (fr : Frame) (name : String) (vals : List (Option ℚ)) : Frame :=
  if fr.cols.any fun c => c.1 = name then
    { fr with cols := fr.cols.map fun c => if c.1 = name then (name, vals) else c }
  else { fr with cols := fr.cols ++ [(name, vals)] }

/-- `result_df['close'].values`. -/
def closes (fr : Frame) : List ℚ := fr.bars.map Bar.close

/-- `result_df['high'].values`. -/
def highs (fr : Frame) : List ℚ := fr.bars.map Bar.high

/-- `result_df['low'].values`. -/
def lows (fr : Frame) : List ℚ := fr.bars.map Bar.low

/-- `result_df['volume'].values`. -/
def volumes (fr : Frame) : List ℚ := fr.bars.map Bar.volume

/-- The `sma`/`ma` branch of the request loop (utils.py lines 415-422). -/
def smaBranch (fr : Frame) (r : Req) : Except String Frame :=
  if r.params.period.getD 20 ≤ fr.bars.length then
    .ok (setCol fr ("sma_" ++ toString (r.params.period.getD 20))
      (calculate_sma (closes fr) (r.params.period.getD 20)))
  else .ok fr

/-- The `ema` branch (utils.py lines 425-432). -/
def emaBranch (fr : Frame) (r : Req) : Except String Frame :=
  if r.params.period.getD 20 ≤ fr.bars.length then
    (calculate_ema (closes fr) (r.params.period.getD 20)).map fun e =>
      setCol fr ("ema_" ++ toString (r.params.period.getD 20)) (e.map some)
  else .ok fr

/-- The `bb`/`bollingerbands` branch (utils.py lines 435-446). -/
def bbBranch (sq : ℚ → ℚ) (fr : Frame) (r : Req) : Except String Frame :=
  if r.params.period.getD 20 ≤ fr.bars.length then
    .ok (setCol (setCol (setCol fr
      ("bb_middle_" ++ toString (r.params.period.getD 20))
      (calculate_bollinger_bands sq (closes fr) (r.params.period.getD 20)
        (r.params.stdDev.getD 2)).1)
      ("bb_upper_" ++ toString (r.params.period.getD 20))
      (calculate_bollinger_bands sq (closes fr) (r.params.period.getD 20)
        (r.params.stdDev.getD 2)).2.1)
      ("bb_lower_" ++ toString (r.params.period.getD 20))
      (calculate_bollinger_bands sq (closes fr) (r.params.period.getD 20)
        (r.params.stdDev.getD 2)).2.2)
  else .ok fr

/-- The `macd` branch (utils.py lines 449-461). -/
def macdBranch (fr : Frame) (r : Req) : Except String Frame :=
  if r.params.slowPeriod.getD 26 + r.params.signalPeriod.getD 9 ≤ fr.bars.length then
    (calculate_macd (closes fr) (r.params.fastPeriod.getD 12)
        (r.params.slowPeriod.getD 26) (r.params.signalPeriod.getD 9)).map fun m =>
      setCol (setCol (setCol fr "macd_line" (m.1.map some))
        "macd_signal" (m.2.1.map some)) "macd_histogram" (m.2.2.map some)
  else .ok fr

/-- The `rsi` branch (utils.py lines 464-471). -/
def rsiBranch (fr : Frame) (r : Req) : Except String Frame :=
  if r.params.period.getD 14 + 1 ≤ fr.bars.length then
    .ok (setCol fr "rsi" ((calculate_rsi (closes fr) (r.params.period.getD 14)).map some))
  else .ok fr

/-- The `atr` branch (utils.py lines 474-486). -/
def atrBranch (fr : Frame) (r : Req) : Except String Frame :=
  if r.params.period.getD 14 + 1 ≤ fr.bars.length then
    .ok (setCol fr "atr"
      ((calculate_atr (highs fr) (lows fr) (closes fr) (r.params.period.getD 14)).map some))
  else .ok fr

/-- The `stochastic`/`stoch`/`stochasticoscillator` branch (utils.py
lines 489-507). -/
def stochBranch (fr : Frame) (r : Req) : Except String Frame :=
  if r.params.kPeriod.getD 14 + r.params.dPeriod.getD 3 ≤ fr.bars.length then
    (calculate_stochastic (highs fr) (lows fr) (closes fr)
        (r.params.kPeriod.getD 14) (r.params.dPeriod.getD 3)
        (r.params.slowing.getD 1)).map fun s =>
      setCol (setCol fr "stoch_k" (s.1.map some)) "stoch_d" s.2
  else .ok fr

/-- The `wma` branch (utils.py lines 510-517). -/
def wmaBranch (fr : Frame) (r : Req) : Except String Frame :=
  if r.params.period.getD 20 ≤ fr.bars.length then
    .ok (setCol fr ("wma_" ++ toString (r.params.period.getD 20))
      ((calculate_wma (closes fr) (r.params.period.getD 20)).map some))
  else .ok fr

/-- The `vwap` branch (utils.py lines 520-527); its period has no
default. -/
def vwapBranch (fr : Frame) (r : Req) : Except String Frame :=
  if 0 < fr.bars.length then
    .ok (setCol fr "vwap"
      ((calculate_vwap (closes fr) (volumes fr) r.params.period).map some))
  else .ok fr

/-- The `psar`/`parabolicsar` branch (utils.py lines 530-546);
0.02 = 1/50, 0.2 = 1/5. -/
def psarBranch (fr : Frame) (r : Req) : Except String Frame :=
  if 2 ≤ fr.bars.length then
    .ok (setCol fr "psar"
      ((calculate_parabolic_sar (highs fr) (lows fr) (closes fr)
        (r.params.afStart.getD (1 / 50)) (r.params.afIncrement.getD (1 / 50))
        (r.params.afMax.getD (1 / 5))).map some))
  else .ok fr

/-- The `williamsr`/`williams%r`/`percentr` branch (utils.py lines
549-561). -/
def williamsBranch (fr : Frame) (r : Req) : Except String Frame :=
  if r.params.period.getD 14 ≤ fr.bars.length then
    (calculate_williams_r (highs fr) (lows fr) (closes fr)
        (r.params.period.getD 14)).map fun w =>
      setCol fr "williams_r" (w.map some)
  else .ok fr

/-- The `cci` branch (utils.py lines 564-576). -/
def cciBranch (fr : Frame) (r : Req) : Except String Frame :=
  if r.params.period.getD 20 ≤ fr.bars.length then
    .ok (setCol fr "cci"
      ((calculate_cci (highs fr) (lows fr) (closes fr) (r.params.period.getD 20)).map some))
  else .ok fr

/-- The `mfi` branch (utils.py lines 579-592). -/
def mfiBranch (fr : Frame) (r : Req) : Except String Frame :=
  if r.params.period.getD 14 + 1 ≤ fr.bars.length then
    .ok (setCol fr "mfi"
      ((calculate_mfi (highs fr) (lows fr) (closes fr) (volumes fr)
        (r.params.period.getD 14)).map some))
  else .ok fr

/-- The `obv` branch (utils.py lines 595-604). -/
def obvBranch (fr : Frame) (r : Req) : Except String Frame :=
  if 2 ≤ fr.bars.length then
    .ok (setCol fr "obv" ((calculate_obv (closes fr) (volumes fr)).map some))
  else .ok fr

/-- The `adx` branch (utils.py lines 607-622). -/
def adxBranch (fr : Frame) (r : Req) : Except String Frame :=
  if 2 * r.params.period.getD 14 ≤ fr.bars.length then
    .ok (setCol (setCol (setCol fr
      "adx" ((calculate_adx (highs fr) (lows fr) (closes fr) (r.params.period.getD 14)).1.map some))
      "plus_di" ((calculate_adx (highs fr) (lows fr) (closes fr) (r.params.period.getD 14)).2.1.map some))
      "minus_di" ((calculate_adx (highs fr) (lows fr) (closes fr) (r.params.period.getD 14)).2.2.map some))
  else .ok fr

/-- The body of the `for indicator in indicators` loop of
`add_indicators` (utils.py lines 408-622): dispatch on the lower-cased
type string to the branch of that indicator.  A branch whose
data-sufficiency gate fails only logs a warning and leaves the frame
unchanged, as does an unrecognized type; an exception raised inside an
indicator's computation propagates (there is no `try`/`except` around
the branches). -/
def processReq (sq : ℚ → ℚ) (fr : Frame) (r : Req) : Except String Frame :=
  if strLower r.type = "sma" ∨ strLower r.type = "ma" then smaBranch fr r
  else if strLower r.type = "ema" then emaBranch fr r
  else if strLower r.type = "bb" ∨ strLower r.type = "bollingerbands" then bbBranch sq fr r
  else if strLower r.type = "macd" then macdBranch fr r
  else if strLower r.type = "rsi" then rsiBranch fr r
  else if strLower r.type = "atr" then atrBranch fr r
  else if strLower r.type = "stochastic" ∨ strLower r.type = "stoch"
      ∨ strLower r.type = "stochasticoscillator" then stochBranch fr r
  else if strLower r.type = "wma" then wmaBranch fr r
  else if strLower r.type = "vwap" then vwapBranch fr r
  else if strLower r.type = "psar" ∨ strLower r.type = "parabolicsar" then psarBranch fr r
  else if strLower r.type = "williamsr" ∨ strLower r.type = "williams%r"
      ∨ strLower r.type = "percentr" then williamsBranch fr r
  else if strLower r.type = "cci" then cciBranch fr r
  else if strLower r.type = "mfi" then mfiBranch fr r
  else if strLower r.type = "obv" then obvBranch fr r
  else if strLower r.type = "adx" then adxBranch fr r
  else .ok fr

/-- The data-sufficiency gate of each branch of `add_indicators`, as a
function of the request and the frame length only (`true` for an
unrecognized type, which has no gate). -/
def reqGate (r : Req) (n : ℕ) : Bool :=
  if strLower r.type = "sma" ∨ strLower r.type = "ma" then r.params.period.getD 20 ≤ n
  else if strLower r.type = "ema" then r.params.period.getD 20 ≤ n
  else if strLower r.type = "bb" ∨ strLower r.type = "bollingerbands" then
    r.params.period.getD 20 ≤ n
  else if strLower r.type = "macd" then
    r.params.slowPeriod.getD 26 + r.params.signalPeriod.getD 9 ≤ n
  else if strLower r.type = "rsi" then r.params.period.getD 14 + 1 ≤ n
  else if strLower r.type = "atr" then r.params.period.getD 14 + 1 ≤ n
  else if strLower r.type = "stochastic" ∨ strLower r.type = "stoch"
      ∨ strLower r.type = "stochasticoscillator" then
    r.params.kPeriod.getD 14 + r.params.dPeriod.getD 3 ≤ n
  else if strLower r.type = "wma" then r.params.period.getD 20 ≤ n
  else if strLower r.type = "vwap" then 0 < n
  else if strLower r.type = "psar" ∨ strLower r.type = "parabolicsar" then 2 ≤ n
  else if strLower r.type = "williamsr" ∨ strLower r.type = "williams%r"
      ∨ strLower r.type = "percentr" then
    r.params.period.getD 14 ≤ n
  else if strLower r.type = "cci" then r.params.period.getD 20 ≤ n
  else if strLower r.type = "mfi" then r.params.period.getD 14 + 1 ≤ n
  else if strLower r.type = "obv" then 2 ≤ n
  else if strLower r.type = "adx" then 2 * r.params.period.getD 14 ≤ n
  else true

/-! ### Post-processing / gap filler (utils.py lines 624-638)

`result_df = result_df.ffill().bfill()`, then, if any column still has a
NaN, `result_df = result_df.fillna(0)`.  The fills also run over the
OHLCV base columns, where they are the identity because those columns
never contain NaN. -/

/-- Forward fill with a carried last valid value. -/
def ffillGo (carry : Option ℚ) : List (Option ℚ) → List (Option ℚ)
  | [] => []
  | none :: xs => carry :: ffillGo carry xs
  | some x :: xs => some x :: ffillGo (some x) xs

/-- `Series.ffill()`. -/
def ffillCol (xs : List (Option ℚ)) : List (Option ℚ) := ffillGo none xs

/-- `Series.bfill()`. -/
def bfillCol (xs : List (Option ℚ)) : List (Option ℚ) := (ffillGo none xs.reverse).reverse

/-- The whole gap-filling pass over the frame's columns. -/
def gapFill (fr : Frame) : Frame :=
  let filled := fr.cols.map fun c => (c.1, bfillCol (ffillCol c.2))
  if filled.any fun c => c.2.any Option.isNone then
    { fr with cols := filled.map fun c => (c.1, c.2.map fun x => some (x.getD 0)) }
  else { fr with cols := filled }

/-- `add_indicators` from utils.py: process the requests in order (an
exception from any branch aborts the loop and propagates), then run the
gap filler. -/
def add_indicators (sq : ℚ → ℚ) (df : Frame) (indicators : List Req) :
    Except String Frame := do
  let result_df ← indicators.foldlM (processReq sq) df
  return gapFill result_df

/-- The list of indicator column names of the result (empty for an
error); a statement helper. -/
def colNames : Except String Frame → List String
  | .ok fr => fr.cols.map Prod.fst
  | .error _ => []

/-- The cell of column `name` at row `i` of the result frame, when the
computation succeeded and the column exists; a statement helper. -/
def cellAt (e : Except String Frame) (name : String) (i : ℕ) : Option (Option ℚ) :=
  match e with
  | .ok fr => (fr.cols.lookup name).bind fun col => col.get? i
  | .error _ => none

/-- The macd line of `calculate_macd` (empty for an error); a statement
helper. -/
def macdLineOf (prices : List ℚ) (fast slow signal : ℕ) : List ℚ :=
  match calculate_macd prices fast slow signal with
  | .ok m => m.1
  | .error _ => []

/-! ## Lemmas about the gap filler -/

theorem ffillGo_eq_self (c : Option ℚ) (xs : List (Option ℚ))
    (h : ∀ x ∈ xs, x ≠ none) : ffillGo c xs = xs := by
  induction xs generalizing c with
  | nil => rfl
  | cons x xs ih =>
    cases x with
    | none => exact absurd rfl (h none (List.mem_cons_self _ _))
    | some a =>
      simp only [ffillGo]
      exact congrArg _ (ih _ fun y hy => h y (List.mem_cons_of_mem _ hy))

theorem bfillCol_eq_self (xs : List (Option ℚ)) (h : ∀ x ∈ xs, x ≠ none) :
    bfillCol xs = xs := by
  unfold bfillCol
  rw [ffillGo_eq_self _ _ fun y hy => h y (List.mem_reverse.mp hy), List.reverse_reverse]

theorem gapFill_no_none (fr : Frame) :
    ∀ c ∈ (gapFill fr).cols, ∀ x ∈ c.2, x ≠ none := by
  simp only [gapFill]
  split
  · intro c hc x hx
    simp only [List.mem_map] at hc
    obtain ⟨d, _, rfl⟩ := hc
    simp only [List.mem_map] at hx
    obtain ⟨y, _, rfl⟩ := hx
    simp
  · next hany =>
    intro c hc x hx
    rw [Bool.not_eq_true, List.any_eq_false] at hany
    have h1 := hany c hc
    simp only [Bool.not_eq_true, List.any_eq_false, Option.isNone_iff_eq_none] at h1
    exact h1 x hx

theorem gapFill_of_no_none (fr : Frame)
    (h : ∀ c ∈ fr.cols, ∀ x ∈ c.2, x ≠ none) : gapFill fr = fr := by
  have hfill : fr.cols.map (fun c => (c.1, bfillCol (ffillCol c.2))) = fr.cols := by
    have := List.map_congr_left (l := fr.cols)
      (f := fun c => (c.1, bfillCol (ffillCol c.2))) (g := id) ?_
    · rw [this, List.map_id]
    · intro c hc
      have hcol : ∀ x ∈ c.2, x ≠ none := h c hc
      simp only [id]
      rw [ffillCol, ffillGo_eq_self _ _ hcol, bfillCol_eq_self _ hcol]
  have hany : (fr.cols.any fun c => c.2.any Option.isNone) = false := by
    simp only [List.any_eq_false, Bool.not_eq_true, Option.isNone_iff_eq_none]
    exact h
  simp only [gapFill, hfill, hany]
  simp

/-- C6: the gap-filling pass (forward-fill, then backward-fill, then
zero-fill of any still-missing cell) is idempotent: applying it twice to
any data frame yields exactly the same frame as applying it once. -/
theorem gapFill_idempotent (fr : Frame) : gapFill (gapFill fr) = gapFill fr :=
  gapFill_of_no_none _ (gapFill_no_none fr)

/-! ## Lemmas about windows and the simple moving average -/

theorem getElem?_eq_nth (xs : List ℚ) (j : ℕ) (h : j < xs.length) :
    xs[j]? = some (nth xs j) := by
  rw [List.getElem?_eq_getElem h]
  unfold nth
  rw [List.getD_eq_getElem?_getD, List.getElem?_eq_getElem h]
  rfl

theorem windowAt_getElem? (xs : List ℚ) (i w k : ℕ) (hw : w ≤ i + 1)
    (hk : k < w) : (windowAt xs i w)[k]? = xs[i + 1 - w + k]? := by
  unfold windowAt
  rw [List.getElem?_drop]
  exact List.getElem?_take_of_lt (by omega)

theorem windowAt_length (xs : List ℚ) (i w : ℕ) (hw : w ≤ i + 1)
    (hi : i < xs.length) : (windowAt xs i w).length = w := by
  unfold windowAt
  rw [List.length_drop, List.length_take]
  omega

theorem windowAt_eq_map_range (xs : List ℚ) (i w : ℕ) (hw : w ≤ i + 1)
    (hi : i < xs.length) :
    windowAt xs i w = (List.range w).map fun k => nth xs (i + 1 - w + k) := by
  apply List.ext_getElem?
  intro k
  by_cases hk : k < w
  · rw [windowAt_getElem? xs i w k hw hk, List.getElem?_map,
      List.getElem?_range hk, getElem?_eq_nth xs _ (by omega)]
    rfl
  · rw [List.getElem?_eq_none (by rw [windowAt_length xs i w hw hi]; omega),
      List.getElem?_eq_none (by simp; omega)]

theorem mean_windowAt_eq (xs : List ℚ) (i w : ℕ) (hw : w ≤ i + 1)
    (hi : i < xs.length) :
    mean (windowAt xs i w) =
      ((List.range w).map fun k => nth xs (i + 1 - w + k)).sum / w := by
  unfold mean
  rw [windowAt_eq_map_range xs i w hw hi]
  simp

theorem countP_range_lt (m N : ℕ) :
    (List.range N).countP (fun i => decide (i < m)) = min m N := by
  induction N with
  | zero => simp
  | succ N ih =>
    rw [List.range_succ, List.countP_append, ih]
    by_cases h : N < m
    · simp only [List.countP_cons, List.countP_nil, h]
      simp
      omega
    · simp only [List.countP_cons, List.countP_nil, h]
      simp [h]
      omega

theorem calculate_sma_getElem? (prices : List ℚ) (P i : ℕ) (hi : i < prices.length) :
    (calculate_sma prices P)[i]? =
      some (if P ≠ 0 ∧ P ≤ i + 1 then some (mean (windowAt prices i P)) else none) := by
  unfold calculate_sma rollingMean
  rw [List.getElem?_map, List.getElem?_range hi]
  rfl

/-- C4: for every period `P ≥ 1` and price series of length `≥ P`, the SMA
output before gap filling is the NaN sentinel at exactly the indices
`0 … P-2` (`P-1` undefined entries altogether) and at every index
`i ≥ P-1` it is defined and equals the arithmetic mean of the trailing
`P` closes. -/
theorem sma_warmup_and_values (prices : List ℚ) (P : ℕ)
    (h1 : 1 ≤ P) (h2 : P ≤ prices.length) :
    ((calculate_sma prices P).countP (fun x => x.isNone) = P - 1)
    ∧ (∀ i, i + 1 < P → (calculate_sma prices P)[i]? = some none)
    ∧ (∀ i, P ≤ i + 1 → i < prices.length →
        (calculate_sma prices P)[i]? =
          some (some (((List.range P).map fun k => nth prices (i + 1 - P + k)).sum / P))) := by
  refine ⟨?_, ?_, ?_⟩
  · unfold calculate_sma rollingMean
    rw [List.countP_map]
    have hcg : ∀ x ∈ List.range prices.length,
        (((fun (o : Option ℚ) => o.isNone) ∘ fun i =>
          if P ≠ 0 ∧ P ≤ i + 1 then some (mean (windowAt prices i P)) else none) x = true)
        ↔ ((fun i => decide (i < P - 1)) x = true) := by
      intro x _
      simp only [Function.comp_apply]
      by_cases hx : P ≠ 0 ∧ P ≤ x + 1
      · rw [if_pos hx]
        simp only [Option.isNone_some, decide_eq_true_eq]
        constructor
        · intro h
          simp at h
        · intro h
          exact (by omega : False).elim
      · rw [if_neg hx]
        simp only [Option.isNone_none, decide_eq_true_eq]
        constructor
        · intro _
          omega
        · intro _
          trivial
    rw [List.countP_congr hcg, countP_range_lt]
    omega
  · intro i hiP
    have hi : i < prices.length := by omega
    rw [calculate_sma_getElem? prices P i hi]
    have : ¬ (P ≠ 0 ∧ P ≤ i + 1) := by omega
    simp [this]
  · intro i hPi hi
    rw [calculate_sma_getElem? prices P i hi]
    have hcond : P ≠ 0 ∧ P ≤ i + 1 := by omega
    rw [if_pos hcond, mean_windowAt_eq prices i P hPi hi]

/-- Witness for C4 at `P = 2`, `prices = [1, 2, 3]`. -/
theorem sma_warmup_and_values_witness :
    (calculate_sma [1, 2, 3] 2)[0]? = some none
    ∧ (calculate_sma [1, 2, 3] 2)[1]? = some (some (3 / 2)) := by
  have h := sma_warmup_and_values [1, 2, 3] 2 (by norm_num) (by norm_num)
  refine ⟨h.2.1 0 (by norm_num), ?_⟩
  rw [h.2.2 1 (by norm_num) (by norm_num)]
  norm_num [nth, List.range_succ]

/-! ## Warm-up representation (C2) -/

theorem rangeMap_getElem? {α : Type} (f : ℕ → α) (n i : ℕ) (hi : i < n) :
    ((List.range n).map f)[i]? = some (f i) := by
  rw [List.getElem?_map, List.getElem?_range hi]
  rfl

theorem wilderFrom_warmup (x : ℕ → ℚ) (p : ℚ) (start : ℕ) (seed : ℚ)
    (i : ℕ) (h : i < start) : wilderFrom x p start seed i = 0 := by
  cases i with
  | zero =>
    have hs : start ≠ 0 := by omega
    simp [wilderFrom, hs]
  | succ j => simp [wilderFrom, h]

/-- An interpretation of the Bollinger square root used to instantiate
concrete computations (no theorem depends on the interpretation). -/
def sqId : ℚ → ℚ := fun q => q

/-- A concrete 3-bar frame used by concrete instantiations. -/
def df3 : Frame :=
  { bars := [⟨1, 1, 1, 1, 1⟩, ⟨2, 2, 2, 2, 1⟩, ⟨3, 3, 3, 3, 1⟩], cols := [] }

/-- A WMA request with period 2. -/
def wmaReq2 : Req := { type := "wma", params := { period := some 2 } }

/-- C2 counterexample: the claim says every warm-up index of every
indicator carries a distinguished absent-value sentinel (not an ordinary
number such as 0).  On the 3-bar frame `df3`, WMA(2) — one of the claim's
cited functions — produces at its warm-up index 0 the cell `some 0`, the
ordinary number 0 written by `np.zeros_like`, and not the sentinel
`none`. -/
theorem wma_warmup_is_zero_not_sentinel :
    cellAt (processReq sqId df3 wmaReq2) "wma_2" 0 = some (some 0)
    ∧ cellAt (processReq sqId df3 wmaReq2) "wma_2" 0 ≠ some none := by
  constructor
  · decide
  · decide

/-- C2 (amended): only the indicators computed through pandas rolling
windows (SMA here; likewise Bollinger and the stochastic %D) mark their
warm-up region with the NaN sentinel; the loop-based indicators cited by
the claim (WMA, RSI, ATR) initialize their output with `np.zeros_like`,
so their warm-up indices carry the ordinary number 0 until the gap filler
runs. -/
theorem warmup_values_amended (prices high low close : List ℚ) (period : ℕ)
    (h1 : 1 ≤ period) (hlen : period + 1 ≤ prices.length)
    (hlenc : period + 1 ≤ close.length) :
    (∀ i, i + 1 < period → (calculate_sma prices period)[i]? = some none)
    ∧ (∀ i, i + 1 < period → (calculate_wma prices period)[i]? = some 0)
    ∧ (∀ i, i < period → (calculate_rsi prices period)[i]? = some 0)
    ∧ (∀ i, i + 1 < period → (calculate_atr high low close period)[i]? = some 0) := by
  refine ⟨?_, ?_, ?_, ?_⟩
  · intro i hi
    rw [calculate_sma_getElem? prices period i (by omega)]
    have : ¬ (period ≠ 0 ∧ period ≤ i + 1) := by omega
    simp [this]
  · intro i hi
    unfold calculate_wma
    rw [rangeMap_getElem? _ _ i (by omega)]
    have : ¬ period ≤ i + 1 := by omega
    simp [this]
  · intro i hi
    unfold calculate_rsi
    rw [rangeMap_getElem? _ _ i (by omega)]
    simp [hi]
  · intro i hi
    unfold calculate_atr
    rw [rangeMap_getElem? _ _ i (by omega)]
    rw [wilderFrom_warmup _ _ _ _ i (by omega)]

/-- Witness for C2 (amended) at `period = 3`, 4-bar inputs, index 1. -/
theorem warmup_values_amended_witness :
    (calculate_sma [1, 2, 3, 4] 3)[1]? = some none
    ∧ (calculate_wma [1, 2, 3, 4] 3)[1]? = some 0
    ∧ (calculate_rsi [1, 2, 3, 4] 3)[1]? = some 0
    ∧ (calculate_atr [4, 5, 6, 7] [1, 2, 3, 4] [2, 3, 4, 5] 3)[1]? = some 0 := by
  have h := warmup_values_amended [1, 2, 3, 4] [4, 5, 6, 7] [1, 2, 3, 4] [2, 3, 4, 5] 3
    (by norm_num) (by norm_num) (by norm_num)
  exact ⟨h.1 1 (by norm_num), h.2.1 1 (by norm_num), h.2.2.1 1 (by norm_num),
    h.2.2.2 1 (by norm_num)⟩

/-! ## RSI boundedness (C5) -/

theorem nth_rangeMap (f : ℕ → ℚ) (n i : ℕ) (hi : i < n) :
    nth ((List.range n).map f) i = f i := by
  unfold nth
  rw [List.getD_eq_getElem?_getD, rangeMap_getElem? f n i hi]
  rfl

theorem wilderFrom_nonneg (x : ℕ → ℚ) (p : ℚ) (start : ℕ) (seed : ℚ)
    (hseed : 0 ≤ seed) (hx : ∀ j, 0 ≤ x j) (hp : 1 ≤ p) (i : ℕ) :
    0 ≤ wilderFrom x p start seed i := by
  induction i with
  | zero =>
    unfold wilderFrom
    split
    · exact hseed
    · exact le_refl 0
  | succ j ih =>
    unfold wilderFrom
    split
    · exact le_refl 0
    · split
      · exact hseed
      · apply div_nonneg
        · exact add_nonneg (mul_nonneg ih (by linarith)) (hx _)
        · linarith

theorem rsiGain_nonneg (prices : List ℚ) (j : ℕ) : 0 ≤ rsiGain prices j :=
  le_max_right _ _

theorem rsiLoss_nonneg (prices : List ℚ) (j : ℕ) : 0 ≤ rsiLoss prices j :=
  le_max_right _ _

theorem rsiAvgGain_nonneg (prices : List ℚ) (period : ℕ) (h1 : 1 ≤ period)
    (i : ℕ) : 0 ≤ rsiAvgGain prices period i := by
  apply wilderFrom_nonneg
  · apply div_nonneg
    · apply List.sum_nonneg
      intro x hx
      obtain ⟨j, _, rfl⟩ := List.mem_map.mp hx
      exact rsiGain_nonneg prices j
    · exact_mod_cast Nat.zero_le period
  · exact rsiGain_nonneg prices
  · exact_mod_cast h1

theorem rsiAvgLoss_nonneg (prices : List ℚ) (period : ℕ) (h1 : 1 ≤ period)
    (i : ℕ) : 0 ≤ rsiAvgLoss prices period i := by
  apply wilderFrom_nonneg
  · apply div_nonneg
    · apply List.sum_nonneg
      intro x hx
      obtain ⟨j, _, rfl⟩ := List.mem_map.mp hx
      exact rsiLoss_nonneg prices j
    · exact_mod_cast Nat.zero_le period
  · exact rsiLoss_nonneg prices
  · exact_mod_cast h1

/-- C5: for every period `≥ 1` and every input series, the RSI value at
every defined index (index `≥ period`, within the series) lies in
`[0, 100]`, and it equals 100 exactly where the smoothed average loss is
zero. -/
theorem rsi_bounded (prices : List ℚ) (period i : ℕ) (h1 : 1 ≤ period)
    (hpi : period ≤ i) (hi : i < prices.length) :
    (0 ≤ nth (calculate_rsi prices period) i
      ∧ nth (calculate_rsi prices period) i ≤ 100)
    ∧ (rsiAvgLoss prices period i = 0 →
        nth (calculate_rsi prices period) i = 100) := by
  unfold calculate_rsi
  rw [nth_rangeMap _ _ i hi]
  have hnp : ¬ i < period := by omega
  rw [if_neg hnp]
  by_cases hzero : rsiAvgLoss prices period i = 0
  · rw [if_pos hzero]
    exact ⟨⟨by norm_num, by norm_num⟩, fun _ => rfl⟩
  · rw [if_neg hzero]
    have hl : 0 < rsiAvgLoss prices period i :=
      lt_of_le_of_ne (rsiAvgLoss_nonneg prices period h1 i) (Ne.symm hzero)
    have hg : 0 ≤ rsiAvgGain prices period i := rsiAvgGain_nonneg prices period h1 i
    have hrs : 0 ≤ rsiAvgGain prices period i / rsiAvgLoss prices period i :=
      div_nonneg hg (le_of_lt hl)
    have hpos : 0 < 100 / (1 + rsiAvgGain prices period i / rsiAvgLoss prices period i) :=
      div_pos (by norm_num) (by linarith)
    have hle : 100 / (1 + rsiAvgGain prices period i / rsiAvgLoss prices period i) ≤ 100 :=
      div_le_self (by norm_num) (by linarith)
    exact ⟨⟨by linarith, by linarith⟩, fun h => absurd h hzero⟩

/-- Witness for C5 at `period = 1`, `prices = [1, 2, 3]`, `i = 2`. -/
theorem rsi_bounded_witness :
    (0 ≤ nth (calculate_rsi [1, 2, 3] 1) 2
      ∧ nth (calculate_rsi [1, 2, 3] 1) 2 ≤ 100)
    ∧ (rsiAvgLoss [1, 2, 3] 1 2 = 0 → nth (calculate_rsi [1, 2, 3] 1) 2 = 100) :=
  rsi_bounded [1, 2, 3] 1 2 (by norm_num) (by norm_num) (by norm_num)

/-! ## Williams %R boundedness (C10) -/

theorem foldl_max_le (l : List ℚ) : ∀ b a : ℚ, a = b ∨ a ∈ l → a ≤ l.foldl max b := by
  induction l with
  | nil =>
    rintro b a (rfl | h)
    · exact le_refl _
    · cases h
  | cons c l ih =>
    rintro b a (rfl | h)
    · exact le_trans (le_max_left a c) (ih (max a c) (max a c) (Or.inl rfl))
    · rcases List.mem_cons.mp h with rfl | hmem
      · exact le_trans (le_max_right b a) (ih (max b a) (max b a) (Or.inl rfl))
      · exact ih (max b c) a (Or.inr hmem)

theorem foldl_min_le (l : List ℚ) : ∀ b a : ℚ, a = b ∨ a ∈ l → l.foldl min b ≤ a := by
  induction l with
  | nil =>
    rintro b a (rfl | h)
    · exact le_refl _
    · cases h
  | cons c l ih =>
    rintro b a (rfl | h)
    · exact le_trans (ih (min a c) (min a c) (Or.inl rfl)) (min_le_left a c)
    · rcases List.mem_cons.mp h with rfl | hmem
      · exact le_trans (ih (min b a) (min b a) (Or.inl rfl)) (min_le_right b a)
      · exact ih (min b c) a (Or.inr hmem)

theorem le_maxOf {xs : List ℚ} {a : ℚ} (ha : a ∈ xs) : a ≤ maxOf xs := by
  cases xs with
  | nil => cases ha
  | cons x l =>
    unfold maxOf
    rcases List.mem_cons.mp ha with rfl | hmem
    · exact foldl_max_le l a a (Or.inl rfl)
    · exact foldl_max_le l x a (Or.inr hmem)

theorem minOf_le {xs : List ℚ} {a : ℚ} (ha : a ∈ xs) : minOf xs ≤ a := by
  cases xs with
  | nil => cases ha
  | cons x l =>
    unfold minOf
    rcases List.mem_cons.mp ha with rfl | hmem
    · exact foldl_min_le l a a (Or.inl rfl)
    · exact foldl_min_le l x a (Or.inr hmem)

theorem nth_mem_windowAt (xs : List ℚ) (i p : ℕ) (hpi : p ≤ i + 1)
    (hp : 1 ≤ p) (hi : i < xs.length) : nth xs i ∈ windowAt xs i p := by
  have h := windowAt_getElem? xs i p (p - 1) hpi (by omega)
  rw [show i + 1 - p + (p - 1) = i by omega, getElem?_eq_nth xs i hi] at h
  exact List.getElem?_mem h

/-- C10: for every period `≥ 1` and input whose bars satisfy
`low ≤ close ≤ high`, the Williams %R output lies in `[-100, 0]` at every
index `≥ period-1`, and equals -50 when the highest high equals the
lowest low over the trailing window. -/
theorem williams_r_bounded (high low close : List ℚ) (period i : ℕ)
    (h1 : 1 ≤ period) (hlh : high.length = close.length)
    (hll : low.length = close.length)
    (hbars : ∀ j, j < close.length → nth low j ≤ nth close j ∧ nth close j ≤ nth high j)
    (hpi : period ≤ i + 1) (hi : i < close.length) (out : List ℚ)
    (hout : calculate_williams_r high low close period = .ok out) :
    (-100 ≤ nth out i ∧ nth out i ≤ 0)
    ∧ (maxOf (windowAt high i period) = minOf (windowAt low i period) →
        nth out i = -50) := by
  unfold calculate_williams_r at hout
  rw [if_neg (by omega : ¬ period = 0)] at hout
  injection hout with hout'
  subst hout'
  rw [nth_rangeMap _ _ i hi, if_pos hpi]
  have hhigh : nth close i ≤ maxOf (windowAt high i period) :=
    le_trans (hbars i hi).2 (le_maxOf (nth_mem_windowAt high i period hpi h1 (by omega)))
  have hlow : minOf (windowAt low i period) ≤ nth close i :=
    le_trans (minOf_le (nth_mem_windowAt low i period hpi h1 (by omega))) (hbars i hi).1
  by_cases heq : maxOf (windowAt high i period) = minOf (windowAt low i period)
  · rw [if_neg (by simpa using heq)]
    exact ⟨⟨by norm_num, by norm_num⟩, fun _ => rfl⟩
  · rw [if_pos heq]
    have hlt : minOf (windowAt low i period) < maxOf (windowAt high i period) :=
      lt_of_le_of_ne (le_trans hlow hhigh) (Ne.symm heq)
    set hh := maxOf (windowAt high i period)
    set ll := minOf (windowAt low i period)
    have hd : 0 < hh - ll := by linarith
    have hr0 : 0 ≤ (hh - nth close i) / (hh - ll) := div_nonneg (by linarith) (le_of_lt hd)
    have hr1 : (hh - nth close i) / (hh - ll) ≤ 1 := (div_le_one hd).mpr (by linarith)
    refine ⟨⟨by linarith, by linarith⟩, fun h => absurd h heq⟩

/-- Witness for C10 at `period = 1`, one bar `high = 3, low = 1, close = 2`. -/
theorem williams_r_bounded_witness :
    (-100 ≤ nth [-50] 0 ∧ nth [-50] 0 ≤ 0)
    ∧ (maxOf (windowAt [3] 0 1) = minOf (windowAt [1] 0 1) → nth [-50] 0 = -50) := by
  have hout : calculate_williams_r [3] [1] [2] 1 = .ok [-50] := by
    norm_num [calculate_williams_r, maxOf, minOf, windowAt, nth, List.range_succ]
  refine williams_r_bounded [3] [1] [2] 1 0 (by norm_num) (by norm_num) (by norm_num)
    ?_ (by norm_num) (by norm_num) [-50] hout
  intro j hj
  have hj0 : j = 0 := by simpa using hj
  subst hj0
  norm_num [nth]

/-! ## VWAP (C8) -/

theorem nth_zipWith_mul (xs ys : List ℚ) (j : ℕ) (hx : j < xs.length)
    (hy : j < ys.length) :
    nth (List.zipWith (fun a b => a * b) xs ys) j = nth xs j * nth ys j := by
  unfold nth
  rw [List.getD_eq_getElem?_getD, List.getElem?_zipWith',
    List.getElem?_eq_getElem hx, List.getElem?_eq_getElem hy]
  simp [List.getD_eq_getElem?_getD, List.getElem?_eq_getElem, hx, hy]

/-- C8 counterexample: the claim says that in both VWAP modes an index
whose governing volume sum is zero falls back to the raw price.  With one
bar of price 5 and volume 0 and no period, the cumulative mode divides
the zero cumulative price×volume by the guard divisor 1 and yields 0, not
the raw price 5. -/
theorem vwap_zero_volume_yields_zero_not_price :
    calculate_vwap [5] [0] none = [0] ∧ calculate_vwap [5] [0] none ≠ [5] := by
  have h : calculate_vwap [5] [0] none = [0] := by
    norm_num [calculate_vwap, nth, List.range_succ]
  refine ⟨h, ?_⟩
  rw [h]
  intro hc
  simp only [List.cons.injEq, and_true] at hc
  exact absurd hc (by norm_num)

/-- C8 (amended): VWAP with no period equals cumulative price×volume over
cumulative volume where the cumulative volume is positive and equals the
cumulative price×volume divided by the guard divisor 1 (not the raw
price) elsewhere; VWAP with a period `p ≥ 1` equals the rolling
price×volume sum over the rolling volume sum at indices `≥ p-1` when the
window volume is positive, and falls back to the raw price there
otherwise. -/
theorem vwap_values_amended (prices volumes : List ℚ) (i : ℕ)
    (hi : i < prices.length) (hvl : volumes.length = prices.length) :
    (0 < ((List.range (i + 1)).map (nth volumes)).sum →
      nth (calculate_vwap prices volumes none) i =
        ((List.range (i + 1)).map fun j => nth prices j * nth volumes j).sum /
          ((List.range (i + 1)).map (nth volumes)).sum)
    ∧ (((List.range (i + 1)).map (nth volumes)).sum ≤ 0 →
      nth (calculate_vwap prices volumes none) i =
        ((List.range (i + 1)).map fun j => nth prices j * nth volumes j).sum)
    ∧ (∀ p, 1 ≤ p → p ≤ i + 1 →
      (0 < ((List.range p).map fun k => nth volumes (i + 1 - p + k)).sum →
        nth (calculate_vwap prices volumes (some p)) i =
          ((List.range p).map fun k =>
            nth prices (i + 1 - p + k) * nth volumes (i + 1 - p + k)).sum /
            ((List.range p).map fun k => nth volumes (i + 1 - p + k)).sum)
      ∧ (((List.range p).map fun k => nth volumes (i + 1 - p + k)).sum ≤ 0 →
        nth (calculate_vwap prices volumes (some p)) i = nth prices i)) := by
  have hpvlen : (List.zipWith (fun a b => a * b) prices volumes).length = prices.length := by
    rw [List.length_zipWith, hvl, min_self]
  have hcum : ((List.range (i + 1)).map
      (nth (List.zipWith (fun a b => a * b) prices volumes))).sum =
      ((List.range (i + 1)).map fun j => nth prices j * nth volumes j).sum := by
    apply congrArg
    apply List.map_congr_left
    intro j hj
    have hj' : j < prices.length := by
      have := List.mem_range.mp hj
      omega
    exact nth_zipWith_mul prices volumes j hj' (by omega)
  refine ⟨?_, ?_, ?_⟩
  · intro hpos
    unfold calculate_vwap
    rw [nth_rangeMap _ _ i hi]
    dsimp only
    rw [hcum, if_pos hpos]
  · intro hnp
    unfold calculate_vwap
    rw [nth_rangeMap _ _ i hi]
    dsimp only
    rw [hcum, if_neg (not_lt.mpr hnp), div_one]
  · intro p hp1 hpi
    have hwinv : (windowAt volumes i p).sum =
        ((List.range p).map fun k => nth volumes (i + 1 - p + k)).sum := by
      rw [windowAt_eq_map_range volumes i p hpi (by omega)]
    have hwinpv : (windowAt (List.zipWith (fun a b => a * b) prices volumes) i p).sum =
        ((List.range p).map fun k =>
          nth prices (i + 1 - p + k) * nth volumes (i + 1 - p + k)).sum := by
      rw [windowAt_eq_map_range _ i p hpi
        (by omega : i < (List.zipWith (fun a b => a * b) prices volumes).length)]
      apply congrArg
      apply List.map_congr_left
      intro k hk
      have hk' : i + 1 - p + k < prices.length := by
        have := List.mem_range.mp hk
        omega
      exact nth_zipWith_mul prices volumes _ hk' (by omega)
    constructor
    · intro hpos
      unfold calculate_vwap
      rw [nth_rangeMap _ _ i hi]
      rw [hwinv, hwinpv, if_pos hpi, if_pos hpos]
    · intro hnp
      unfold calculate_vwap
      rw [nth_rangeMap _ _ i hi]
      rw [hwinv, if_pos hpi, if_neg (not_lt.mpr hnp)]

/-- Witness for C8 (amended): one bar of price 5 and volume 0, cumulative
mode divides by the guard 1 and rolling mode falls back to the price. -/
theorem vwap_values_amended_witness :
    (((List.range 1).map (nth [0])).sum ≤ 0 →
      nth (calculate_vwap [5] [0] none) 0 =
        ((List.range 1).map fun j => nth [5] j * nth [0] j).sum)
    ∧ (((List.range 1).map fun k => nth [0] (0 + 1 - 1 + k)).sum ≤ 0 →
      nth (calculate_vwap [5] [0] (some 1)) 0 = nth [5] 0) := by
  have h := vwap_values_amended [5] [0] 0 (by norm_num) (by norm_num)
  exact ⟨h.2.1, (h.2.2 1 (by norm_num) (by norm_num)).2⟩

/-! ## Orchestrator lemmas -/

theorem setCol_bars (fr : Frame) (name : String) (vals : List (Option ℚ)) :
    (setCol fr name vals).bars = fr.bars := by
  unfold setCol
  split <;> rfl

theorem map_ok {α : Type} (f : α → Frame) (e : Except String α) (fr' : Frame)
    (h : e.map f = .ok fr') : ∃ a, e = .ok a ∧ fr' = f a := by
  cases e with
  | error s => simp [Except.map] at h
  | ok a =>
    simp [Except.map] at h
    exact ⟨a, rfl, h.symm⟩

theorem inj_ok_bars {fr fr' g : Frame} (hg : g.bars = fr.bars)
    (h : (Except.ok g : Except String Frame) = .ok fr') : fr'.bars = fr.bars := by
  injection h with h2
  subst h2
  exact hg

theorem smaBranch_bars (fr : Frame) (r : Req) (fr' : Frame)
    (h : smaBranch fr r = .ok fr') : fr'.bars = fr.bars := by
  simp only [smaBranch] at h
  split at h <;> exact inj_ok_bars (by simp [setCol_bars]) h

theorem emaBranch_bars (fr : Frame) (r : Req) (fr' : Frame)
    (h : emaBranch fr r = .ok fr') : fr'.bars = fr.bars := by
  simp only [emaBranch] at h
  split at h
  · obtain ⟨a, _, rfl⟩ := map_ok _ _ _ h
    simp [setCol_bars]
  · exact inj_ok_bars rfl h

theorem bbBranch_bars (sq : ℚ → ℚ) (fr : Frame) (r : Req) (fr' : Frame)
    (h : bbBranch sq fr r = .ok fr') : fr'.bars = fr.bars := by
  simp only [bbBranch] at h
  split at h <;> exact inj_ok_bars (by simp [setCol_bars]) h

theorem macdBranch_bars (fr : Frame) (r : Req) (fr' : Frame)
    (h : macdBranch fr r = .ok fr') : fr'.bars = fr.bars := by
  simp only [macdBranch] at h
  split at h
  · obtain ⟨a, _, rfl⟩ := map_ok _ _ _ h
    simp [setCol_bars]
  · exact inj_ok_bars rfl h

theorem rsiBranch_bars (fr : Frame) (r : Req) (fr' : Frame)
    (h : rsiBranch fr r = .ok fr') : fr'.bars = fr.bars := by
  simp only [rsiBranch] at h
  split at h <;> exact inj_ok_bars (by simp [setCol_bars]) h

theorem atrBranch_bars (fr : Frame) (r : Req) (fr' : Frame)
    (h : atrBranch fr r = .ok fr') : fr'.bars = fr.bars := by
  simp only [atrBranch] at h
  split at h <;> exact inj_ok_bars (by simp [setCol_bars]) h

theorem stochBranch_bars (fr : Frame) (r : Req) (fr' : Frame)
    (h : stochBranch fr r = .ok fr') : fr'.bars = fr.bars := by
  simp only [stochBranch] at h
  split at h
  · obtain ⟨a, _, rfl⟩ := map_ok _ _ _ h
    simp [setCol_bars]
  · exact inj_ok_bars rfl h

theorem wmaBranch_bars (fr : Frame) (r : Req) (fr' : Frame)
    (h : wmaBranch fr r = .ok fr') : fr'.bars = fr.bars := by
  simp only [wmaBranch] at h
  split at h <;> exact inj_ok_bars (by simp [setCol_bars]) h

theorem vwapBranch_bars (fr : Frame) (r : Req) (fr' : Frame)
    (h : vwapBranch fr r = .ok fr') : fr'.bars = fr.bars := by
  simp only [vwapBranch] at h
  split at h <;> exact inj_ok_bars (by simp [setCol_bars]) h

theorem psarBranch_bars (fr : Frame) (r : Req) (fr' : Frame)
    (h : psarBranch fr r = .ok fr') : fr'.bars = fr.bars := by
  simp only [psarBranch] at h
  split at h <;> exact inj_ok_bars (by simp [setCol_bars]) h

theorem williamsBranch_bars (fr : Frame) (r : Req) (fr' : Frame)
    (h : williamsBranch fr r = .ok fr') : fr'.bars = fr.bars := by
  simp only [williamsBranch] at h
  split at h
  · obtain ⟨a, _, rfl⟩ := map_ok _ _ _ h
    simp [setCol_bars]
  · exact inj_ok_bars rfl h

theorem cciBranch_bars (fr : Frame) (r : Req) (fr' : Frame)
    (h : cciBranch fr r = .ok fr') : fr'.bars = fr.bars := by
  simp only [cciBranch] at h
  split at h <;> exact inj_ok_bars (by simp [setCol_bars]) h

theorem mfiBranch_bars (fr : Frame) (r : Req) (fr' : Frame)
    (h : mfiBranch fr r = .ok fr') : fr'.bars = fr.bars := by
  simp only [mfiBranch] at h
  split at h <;> exact inj_ok_bars (by simp [setCol_bars]) h

theorem obvBranch_bars (fr : Frame) (r : Req) (fr' : Frame)
    (h : obvBranch fr r = .ok fr') : fr'.bars = fr.bars := by
  simp only [obvBranch] at h
  split at h <;> exact inj_ok_bars (by simp [setCol_bars]) h

theorem adxBranch_bars (fr : Frame) (r : Req) (fr' : Frame)
    (h : adxBranch fr r = .ok fr') : fr'.bars = fr.bars := by
  simp only [adxBranch] at h
  split at h <;> exact inj_ok_bars (by simp [setCol_bars]) h

theorem processReq_bars (sq : ℚ → ℚ) (fr : Frame) (r : Req) (fr' : Frame)
    (h : processReq sq fr r = .ok fr') : fr'.bars = fr.bars := by
  unfold processReq at h
  by_cases h1 : strLower r.type = "sma" ∨ strLower r.type = "ma"
  · rw [if_pos h1] at h
    exact smaBranch_bars fr r fr' h
  rw [if_neg h1] at h
  by_cases h2 : strLower r.type = "ema"
  · rw [if_pos h2] at h
    exact emaBranch_bars fr r fr' h
  rw [if_neg h2] at h
  by_cases h3 : strLower r.type = "bb" ∨ strLower r.type = "bollingerbands"
  · rw [if_pos h3] at h
    exact bbBranch_bars sq fr r fr' h
  rw [if_neg h3] at h
  by_cases h4 : strLower r.type = "macd"
  · rw [if_pos h4] at h
    exact macdBranch_bars fr r fr' h
  rw [if_neg h4] at h
  by_cases h5 : strLower r.type = "rsi"
  · rw [if_pos h5] at h
    exact rsiBranch_bars fr r fr' h
  rw [if_neg h5] at h
  by_cases h6 : strLower r.type = "atr"
  · rw [if_pos h6] at h
    exact atrBranch_bars fr r fr' h
  rw [if_neg h6] at h
  by_cases h7 : strLower r.type = "stochastic" ∨ strLower r.type = "stoch" ∨ strLower r.type = "stochasticoscillator"
  · rw [if_pos h7] at h
    exact stochBranch_bars fr r fr' h
  rw [if_neg h7] at h
  by_cases h8 : strLower r.type = "wma"
  · rw [if_pos h8] at h
    exact wmaBranch_bars fr r fr' h
  rw [if_neg h8] at h
  by_cases h9 : strLower r.type = "vwap"
  · rw [if_pos h9] at h
    exact vwapBranch_bars fr r fr' h
  rw [if_neg h9] at h
  by_cases h10 : strLower r.type = "psar" ∨ strLower r.type = "parabolicsar"
  · rw [if_pos h10] at h
    exact psarBranch_bars fr r fr' h
  rw [if_neg h10] at h
  by_cases h11 : strLower r.type = "williamsr" ∨ strLower r.type = "williams%r" ∨ strLower r.type = "percentr"
  · rw [if_pos h11] at h
    exact williamsBranch_bars fr r fr' h
  rw [if_neg h11] at h
  by_cases h12 : strLower r.type = "cci"
  · rw [if_pos h12] at h
    exact cciBranch_bars fr r fr' h
  rw [if_neg h12] at h
  by_cases h13 : strLower r.type = "mfi"
  · rw [if_pos h13] at h
    exact mfiBranch_bars fr r fr' h
  rw [if_neg h13] at h
  by_cases h14 : strLower r.type = "obv"
  · rw [if_pos h14] at h
    exact obvBranch_bars fr r fr' h
  rw [if_neg h14] at h
  by_cases h15 : strLower r.type = "adx"
  · rw [if_pos h15] at h
    exact adxBranch_bars fr r fr' h
  rw [if_neg h15] at h
  exact inj_ok_bars rfl h

theorem smaBranch_gate (fr : Frame) (r : Req)
    (hg : ¬ r.params.period.getD 20 ≤ fr.bars.length) :
    smaBranch fr r = .ok fr := by
  unfold smaBranch
  rw [if_neg hg]

theorem emaBranch_gate (fr : Frame) (r : Req)
    (hg : ¬ r.params.period.getD 20 ≤ fr.bars.length) :
    emaBranch fr r = .ok fr := by
  unfold emaBranch
  rw [if_neg hg]

theorem bbBranch_gate (sq : ℚ → ℚ) (fr : Frame) (r : Req)
    (hg : ¬ r.params.period.getD 20 ≤ fr.bars.length) :
    bbBranch sq fr r = .ok fr := by
  unfold bbBranch
  rw [if_neg hg]

theorem macdBranch_gate (fr : Frame) (r : Req)
    (hg : ¬ r.params.slowPeriod.getD 26 + r.params.signalPeriod.getD 9 ≤ fr.bars.length) :
    macdBranch fr r = .ok fr := by
  unfold macdBranch
  rw [if_neg hg]

theorem rsiBranch_gate (fr : Frame) (r : Req)
    (hg : ¬ r.params.period.getD 14 + 1 ≤ fr.bars.length) :
    rsiBranch fr r = .ok fr := by
  unfold rsiBranch
  rw [if_neg hg]

theorem atrBranch_gate (fr : Frame) (r : Req)
    (hg : ¬ r.params.period.getD 14 + 1 ≤ fr.bars.length) :
    atrBranch fr r = .ok fr := by
  unfold atrBranch
  rw [if_neg hg]

theorem stochBranch_gate (fr : Frame) (r : Req)
    (hg : ¬ r.params.kPeriod.getD 14 + r.params.dPeriod.getD 3 ≤ fr.bars.length) :
    stochBranch fr r = .ok fr := by
  unfold stochBranch
  rw [if_neg hg]

theorem wmaBranch_gate (fr : Frame) (r : Req)
    (hg : ¬ r.params.period.getD 20 ≤ fr.bars.length) :
    wmaBranch fr r = .ok fr := by
  unfold wmaBranch
  rw [if_neg hg]

theorem vwapBranch_gate (fr : Frame) (r : Req)
    (hg : ¬ 0 < fr.bars.length) :
    vwapBranch fr r = .ok fr := by
  unfold vwapBranch
  rw [if_neg hg]

theorem psarBranch_gate (fr : Frame) (r : Req)
    (hg : ¬ 2 ≤ fr.bars.length) :
    psarBranch fr r = .ok fr := by
  unfold psarBranch
  rw [if_neg hg]

theorem williamsBranch_gate (fr : Frame) (r : Req)
    (hg : ¬ r.params.period.getD 14 ≤ fr.bars.length) :
    williamsBranch fr r = .ok fr := by
  unfold williamsBranch
  rw [if_neg hg]

theorem cciBranch_gate (fr : Frame) (r : Req)
    (hg : ¬ r.params.period.getD 20 ≤ fr.bars.length) :
    cciBranch fr r = .ok fr := by
  unfold cciBranch
  rw [if_neg hg]

theorem mfiBranch_gate (fr : Frame) (r : Req)
    (hg : ¬ r.params.period.getD 14 + 1 ≤ fr.bars.length) :
    mfiBranch fr r = .ok fr := by
  unfold mfiBranch
  rw [if_neg hg]

theorem obvBranch_gate (fr : Frame) (r : Req)
    (hg : ¬ 2 ≤ fr.bars.length) :
    obvBranch fr r = .ok fr := by
  unfold obvBranch
  rw [if_neg hg]

theorem adxBranch_gate (fr : Frame) (r : Req)
    (hg : ¬ 2 * r.params.period.getD 14 ≤ fr.bars.length) :
    adxBranch fr r = .ok fr := by
  unfold adxBranch
  rw [if_neg hg]

theorem processReq_gate_false (sq : ℚ → ℚ) (fr : Frame) (r : Req)
    (hg : reqGate r fr.bars.length = false) : processReq sq fr r = .ok fr := by
  unfold reqGate at hg
  unfold processReq
  by_cases h1 : strLower r.type = "sma" ∨ strLower r.type = "ma"
  · rw [if_pos h1]
    rw [if_pos h1] at hg
    exact smaBranch_gate fr r (by simpa using hg)
  rw [if_neg h1]
  rw [if_neg h1] at hg
  by_cases h2 : strLower r.type = "ema"
  · rw [if_pos h2]
    rw [if_pos h2] at hg
    exact emaBranch_gate fr r (by simpa using hg)
  rw [if_neg h2]
  rw [if_neg h2] at hg
  by_cases h3 : strLower r.type = "bb" ∨ strLower r.type = "bollingerbands"
  · rw [if_pos h3]
    rw [if_pos h3] at hg
    exact bbBranch_gate sq fr r (by simpa using hg)
  rw [if_neg h3]
  rw [if_neg h3] at hg
  by_cases h4 : strLower r.type = "macd"
  · rw [if_pos h4]
    rw [if_pos h4] at hg
    exact macdBranch_gate fr r (by simpa using hg)
  rw [if_neg h4]
  rw [if_neg h4] at hg
  by_cases h5 : strLower r.type = "rsi"
  · rw [if_pos h5]
    rw [if_pos h5] at hg
    exact rsiBranch_gate fr r (by simpa using hg)
  rw [if_neg h5]
  rw [if_neg h5] at hg
  by_cases h6 : strLower r.type = "atr"
  · rw [if_pos h6]
    rw [if_pos h6] at hg
    exact atrBranch_gate fr r (by simpa using hg)
  rw [if_neg h6]
  rw [if_neg h6] at hg
  by_cases h7 : strLower r.type = "stochastic" ∨ strLower r.type = "stoch" ∨ strLower r.type = "stochasticoscillator"
  · rw [if_pos h7]
    rw [if_pos h7] at hg
    exact stochBranch_gate fr r (by simpa using hg)
  rw [if_neg h7]
  rw [if_neg h7] at hg
  by_cases h8 : strLower r.type = "wma"
  · rw [if_pos h8]
    rw [if_pos h8] at hg
    exact wmaBranch_gate fr r (by simpa using hg)
  rw [if_neg h8]
  rw [if_neg h8] at hg
  by_cases h9 : strLower r.type = "vwap"
  · rw [if_pos h9]
    rw [if_pos h9] at hg
    exact vwapBranch_gate fr r (by simpa using hg)
  rw [if_neg h9]
  rw [if_neg h9] at hg
  by_cases h10 : strLower r.type = "psar" ∨ strLower r.type = "parabolicsar"
  · rw [if_pos h10]
    rw [if_pos h10] at hg
    exact psarBranch_gate fr r (by simpa using hg)
  rw [if_neg h10]
  rw [if_neg h10] at hg
  by_cases h11 : strLower r.type = "williamsr" ∨ strLower r.type = "williams%r" ∨ strLower r.type = "percentr"
  · rw [if_pos h11]
    rw [if_pos h11] at hg
    exact williamsBranch_gate fr r (by simpa using hg)
  rw [if_neg h11]
  rw [if_neg h11] at hg
  by_cases h12 : strLower r.type = "cci"
  · rw [if_pos h12]
    rw [if_pos h12] at hg
    exact cciBranch_gate fr r (by simpa using hg)
  rw [if_neg h12]
  rw [if_neg h12] at hg
  by_cases h13 : strLower r.type = "mfi"
  · rw [if_pos h13]
    rw [if_pos h13] at hg
    exact mfiBranch_gate fr r (by simpa using hg)
  rw [if_neg h13]
  rw [if_neg h13] at hg
  by_cases h14 : strLower r.type = "obv"
  · rw [if_pos h14]
    rw [if_pos h14] at hg
    exact obvBranch_gate fr r (by simpa using hg)
  rw [if_neg h14]
  rw [if_neg h14] at hg
  by_cases h15 : strLower r.type = "adx"
  · rw [if_pos h15]
    rw [if_pos h15] at hg
    exact adxBranch_gate fr r (by simpa using hg)
  rw [if_neg h15]

theorem foldlM_skip (sq : ℚ → ℚ) (l1 : List Req) (r : Req) (l2 : List Req) :
    ∀ df : Frame, reqGate r df.bars.length = false →
      (l1 ++ r :: l2).foldlM (processReq sq) df
        = (l1 ++ l2).foldlM (processReq sq) df := by
  induction l1 with
  | nil =>
    intro df hg
    simp only [List.nil_append, List.foldlM_cons]
    rw [processReq_gate_false sq df r hg]
    rfl
  | cons a l ih =>
    intro df hg
    simp only [List.cons_append, List.foldlM_cons]
    cases hp : processReq sq df a with
    | error e => rfl
    | ok fr1 =>
      have hbars : fr1.bars = df.bars := processReq_bars sq df a fr1 hp
      have hg1 : reqGate r fr1.bars.length = false := by rw [hbars]; exact hg
      have hred : ∀ ll : List Req,
          (do
            let init ← (Except.ok fr1 : Except String Frame)
            List.foldlM (processReq sq) init ll)
          = List.foldlM (processReq sq) fr1 ll := fun _ => rfl
      rw [hred, hred]
      exact ih fr1 hg1

/-- C3: a request whose series is shorter than the indicator's minimum
length is omitted entirely: the orchestrator's result on a request list
containing it equals the result on the list with it removed — the short
request attaches no (partial or degraded) column, raises no error, and
every other requested indicator is computed exactly as it would be
without it. -/
theorem insufficient_request_skipped (sq : ℚ → ℚ) (df : Frame)
    (l1 l2 : List Req) (r : Req) (hg : reqGate r df.bars.length = false) :
    add_indicators sq df (l1 ++ r :: l2) = add_indicators sq df (l1 ++ l2) := by
  unfold add_indicators
  rw [foldlM_skip sq l1 r l2 df hg]

/-- Witness for C3: RSI(14) on the 3-bar frame `df3` (too short: needs 15
bars) is dropped, leaving the result of the remaining SMA(2) request. -/
theorem insufficient_request_skipped_witness :
    reqGate { type := "rsi", params := { period := some 14 } } df3.bars.length = false
    ∧ add_indicators sqId df3
        [{ type := "sma", params := { period := some 2 } },
         { type := "rsi", params := { period := some 14 } }]
      = add_indicators sqId df3 [{ type := "sma", params := { period := some 2 } }] := by
  constructor
  · decide
  · exact insufficient_request_skipped sqId df3
      [{ type := "sma", params := { period := some 2 } }] []
      { type := "rsi", params := { period := some 14 } } (by decide)

/-! ## Exception propagation (C1) -/

theorem processReq_ema_zero (sq : ℚ → ℚ) (fr : Frame) (r : Req)
    (ht : strLower r.type = "ema") (hp : r.params.period.getD 20 = 0) :
    processReq sq fr r = .error "span must satisfy: span >= 1" := by
  unfold processReq
  rw [if_neg (by rw [ht]; decide), if_pos ht]
  unfold emaBranch
  rw [hp, if_pos (Nat.zero_le _)]
  unfold calculate_ema
  rw [if_pos (by norm_num)]
  rfl

theorem foldlM_error_of_mem (sq : ℚ → ℚ) (r : Req) (e0 : String)
    (herr : ∀ fr : Frame, processReq sq fr r = .error e0) :
    ∀ (reqs : List Req), r ∈ reqs → ∀ df : Frame,
      ∃ e, reqs.foldlM (processReq sq) df = .error e := by
  intro reqs
  induction reqs with
  | nil =>
    intro hr
    cases hr
  | cons a rest ih =>
    intro hr df
    rcases List.mem_cons.mp hr with rfl | hmem
    · refine ⟨e0, ?_⟩
      rw [List.foldlM_cons, herr df]
      rfl
    · rw [List.foldlM_cons]
      cases hp : processReq sq df a with
      | error e =>
        exact ⟨e, rfl⟩
      | ok fr1 =>
        obtain ⟨e, he⟩ := ih hmem fr1
        exact ⟨e, he⟩

/-- The computation raised: the orchestrator produced an error and no
frame; a statement helper. -/
def isError : Except String Frame → Prop := fun e =>
  match e with
  | .error _ => True
  | .ok _ => False

/-- C1 (amended): `add_indicators` has no `try`/`except` around the
per-indicator branches, so an exception raised inside one indicator's
computation (realizable as the pandas `ewm` span validation failing for
an EMA request with period 0, which passes the length gate) propagates
and aborts the whole call: the orchestrator returns an error and no
frame — the other requested indicators' columns are not returned.  Only
insufficient data and unknown types are isolated per-indicator. -/
theorem exception_aborts_add_indicators (sq : ℚ → ℚ) (df : Frame)
    (reqs : List Req) (r : Req) (hr : r ∈ reqs)
    (ht : strLower r.type = "ema") (hp : r.params.period.getD 20 = 0) :
    isError (add_indicators sq df reqs) := by
  obtain ⟨e, he⟩ := foldlM_error_of_mem sq r "span must satisfy: span >= 1"
    (fun fr => processReq_ema_zero sq fr r ht hp) reqs hr df
  unfold add_indicators
  rw [he]
  trivial

instance {ε α : Type} [DecidableEq ε] [DecidableEq α] :
    DecidableEq (Except ε α) := fun a b =>
  match a, b with
  | .error e, .error e' =>
    if h : e = e' then isTrue (by rw [h]) else isFalse (by intro hc; injection hc; exact h (by assumption))
  | .ok x, .ok y =>
    if h : x = y then isTrue (by rw [h]) else isFalse (by intro hc; injection hc; exact h (by assumption))
  | .error _, .ok _ => isFalse (by intro hc; cases hc)
  | .ok _, .error _ => isFalse (by intro hc; cases hc)

/-- An EMA request whose period 0 passes the length gate but makes
pandas `ewm` raise. -/
def emaReq0 : Req := { type := "ema", params := { period := some 0 } }

/-- An SMA request with period 1, computable on any nonempty frame. -/
def smaReq1 : Req := { type := "sma", params := { period := some 1 } }

/-- C1 counterexample: the claim says a failure inside one indicator's
math never aborts the processing of the remaining requests and the
orchestrator still returns the other indicators' columns.  On the 3-bar
frame `df3` with requests `[ema(period 0), sma(period 1)]`, the EMA
computation raises (pandas rejects `span < 1`), `add_indicators` returns
that error and no frame at all — in particular no frame containing the
column `sma_1` of the other, perfectly computable request. -/
theorem computation_error_aborts_orchestrator :
    add_indicators sqId df3 [emaReq0, smaReq1] = .error "span must satisfy: span >= 1"
    ∧ colNames (add_indicators sqId df3 [emaReq0, smaReq1]) = [] := by
  have h1 : add_indicators sqId df3 [emaReq0, smaReq1]
      = .error "span must satisfy: span >= 1" := by decide
  exact ⟨h1, by rw [h1]; rfl⟩

/-- Witness for C1 (amended) on the concrete frame `df3`. -/
theorem exception_aborts_add_indicators_witness :
    isError (add_indicators sqId df3 [emaReq0, smaReq1]) :=
  exception_aborts_add_indicators sqId df3 [emaReq0, smaReq1] emaReq0
    (List.mem_cons_self _ _) (by decide) (by decide)

/-! ## Column naming (C7) -/

theorem ok_bind {α β : Type} (x : α) (f : α → Except String β) :
    (Except.ok x >>= f) = f x := rfl

theorem mem_map_fst_iff_any (cols : List (String × List (Option ℚ)))
    (name : String) :
    (cols.any fun c => c.1 = name) = true ↔ name ∈ cols.map Prod.fst := by
  rw [List.any_eq_true]
  constructor
  · rintro ⟨c, hc, hce⟩
    rw [List.mem_map]
    exact ⟨c, hc, by simpa using hce.symm⟩
  · intro h
    obtain ⟨c, hc, hce⟩ := List.mem_map.mp h
    exact ⟨c, hc, by simpa using hce⟩

theorem setCol_names_new (fr : Frame) (name : String) (vals : List (Option ℚ))
    (h : ¬ name ∈ fr.cols.map Prod.fst) :
    (setCol fr name vals).cols.map Prod.fst = fr.cols.map Prod.fst ++ [name] := by
  unfold setCol
  rw [if_neg fun hc => h ((mem_map_fst_iff_any _ _).mp hc)]
  simp

theorem setCol_names_overwrite (fr : Frame) (name : String) (vals : List (Option ℚ))
    (h : name ∈ fr.cols.map Prod.fst) :
    (setCol fr name vals).cols.map Prod.fst = fr.cols.map Prod.fst := by
  unfold setCol
  rw [if_pos ((mem_map_fst_iff_any _ _).mpr h)]
  show (fr.cols.map fun c => if c.1 = name then (name, vals) else c).map Prod.fst
    = fr.cols.map Prod.fst
  rw [List.map_map]
  apply List.map_congr_left
  intro c _
  by_cases hce : c.1 = name
  · simp only [Function.comp_apply, if_pos hce]
    exact hce.symm
  · simp only [Function.comp_apply, if_neg hce]

theorem gapFill_names (fr : Frame) :
    (gapFill fr).cols.map Prod.fst = fr.cols.map Prod.fst := by
  simp only [gapFill]
  split <;> simp [List.map_map, Function.comp]

/-- An SMA request with a given period. -/
def smaReqP (p : ℕ) : Req := { type := "sma", params := { period := some p } }

/-- An RSI request with a given period. -/
def rsiReqP (p : ℕ) : Req := { type := "rsi", params := { period := some p } }

theorem processReq_smaP (sq : ℚ → ℚ) (fr : Frame) (p : ℕ)
    (hg : p ≤ fr.bars.length) :
    processReq sq fr (smaReqP p)
      = .ok (setCol fr ("sma_" ++ toString p) (calculate_sma (closes fr) p)) := by
  unfold processReq
  dsimp only [smaReqP]
  rw [if_pos (Or.inl (show strLower "sma" = "sma" by decide))]
  unfold smaBranch
  dsimp only [Option.getD]
  rw [if_pos hg]

theorem processReq_rsiP (sq : ℚ → ℚ) (fr : Frame) (p : ℕ)
    (hg : p + 1 ≤ fr.bars.length) :
    processReq sq fr (rsiReqP p)
      = .ok (setCol fr "rsi" ((calculate_rsi (closes fr) p).map some)) := by
  unfold processReq
  dsimp only [rsiReqP]
  rw [if_neg (show ¬ (strLower "rsi" = "sma" ∨ strLower "rsi" = "ma") by decide),
    if_neg (show ¬ strLower "rsi" = "ema" by decide),
    if_neg (show ¬ (strLower "rsi" = "bb" ∨ strLower "rsi" = "bollingerbands") by decide),
    if_neg (show ¬ strLower "rsi" = "macd" by decide),
    if_pos (show strLower "rsi" = "rsi" by decide)]
  unfold rsiBranch
  dsimp only [Option.getD]
  rw [if_pos hg]

/-- A concrete 4-bar frame. -/
def df4 : Frame :=
  { bars := [⟨1, 2, 1, 1, 1⟩, ⟨1, 3, 1, 2, 1⟩, ⟨1, 4, 1, 3, 1⟩, ⟨1, 5, 1, 4, 1⟩],
    cols := [] }

/-- C7 counterexample: the claim says two requests of the same indicator
type with different parameters produce distinctly named columns that
coexist.  Two RSI requests with periods 2 and 3 on the 4-bar frame `df4`
yield a single column named `rsi`: the name carries no parameter, so the
second request overwrites the first. -/
theorem rsi_columns_collide :
    colNames (add_indicators sqId df4 [rsiReqP 2, rsiReqP 3]) = ["rsi"] := by
  decide

/-- C7 (amended): output column names are deterministic, but only the
moving-average family (sma/ema/wma/bb) is parameter-qualified; RSI (like
atr, macd, stochastic, vwap, psar, williams %r, cci, mfi, obv, adx) uses
a fixed column name, so two same-type requests with different parameters
collapse onto one column, the later overwriting the earlier: two SMA
requests with periods 20 and 50 coexist as `sma_20`, `sma_50`, while any
two RSI requests produce the single column `rsi`. -/
theorem column_naming_amended (sq : ℚ → ℚ) (df : Frame) (hc : df.cols = [])
    (p1 p2 : ℕ) :
    (50 ≤ df.bars.length →
      colNames (add_indicators sq df [smaReqP 20, smaReqP 50]) = ["sma_20", "sma_50"])
    ∧ (p1 + 1 ≤ df.bars.length → p2 + 1 ≤ df.bars.length →
      colNames (add_indicators sq df [rsiReqP p1, rsiReqP p2]) = ["rsi"]) := by
  constructor
  · intro hn
    have h1 := processReq_smaP sq df 20 (by omega)
    have h2 := processReq_smaP sq (setCol df ("sma_" ++ toString 20)
      (calculate_sma (closes df) 20)) 50 (by rw [setCol_bars]; omega)
    unfold add_indicators
    rw [List.foldlM_cons, h1, ok_bind, List.foldlM_cons, h2, ok_bind, List.foldlM_nil]
    show colNames (Except.ok (gapFill _)) = _
    simp only [colNames]
    rw [gapFill_names]
    rw [setCol_names_new _ _ _ (by
      rw [setCol_names_new _ _ _ (by rw [hc]; simp), hc]
      decide)]
    rw [setCol_names_new _ _ _ (by rw [hc]; simp), hc]
    decide
  · intro hn1 hn2
    have h1 := processReq_rsiP sq df p1 (by omega)
    have h2 := processReq_rsiP sq (setCol df "rsi"
      ((calculate_rsi (closes df) p1).map some)) p2 (by rw [setCol_bars]; omega)
    unfold add_indicators
    rw [List.foldlM_cons, h1, ok_bind, List.foldlM_cons, h2, ok_bind, List.foldlM_nil]
    show colNames (Except.ok (gapFill _)) = _
    simp only [colNames]
    rw [gapFill_names]
    rw [setCol_names_overwrite _ _ _ (by
      rw [setCol_names_new _ _ _ (by rw [hc]; simp), hc]
      decide)]
    rw [setCol_names_new _ _ _ (by rw [hc]; simp), hc]
    rfl

/-- A concrete 51-bar frame. -/
def df51 : Frame := { bars := List.replicate 51 ⟨1, 1, 1, 1, 1⟩, cols := [] }

/-- Witness for C7 (amended) on the 51-bar frame `df51`, RSI periods 14
and 21. -/
theorem column_naming_amended_witness :
    (colNames (add_indicators sqId df51 [smaReqP 20, smaReqP 50]) = ["sma_20", "sma_50"])
    ∧ (colNames (add_indicators sqId df51 [rsiReqP 14, rsiReqP 21]) = ["rsi"]) :=
  ⟨(column_naming_amended sqId df51 rfl 14 21).1 (by decide),
   (column_naming_amended sqId df51 rfl 14 21).2 (by decide) (by decide)⟩

/-! ## MACD on increasing series (C9) -/

theorem nth_zipWith_sub (xs ys : List ℚ) (j : ℕ) (hx : j < xs.length)
    (hy : j < ys.length) :
    nth (List.zipWith (fun a b => a - b) xs ys) j = nth xs j - nth ys j := by
  unfold nth
  rw [List.getD_eq_getElem?_getD, List.getElem?_zipWith',
    List.getElem?_eq_getElem hx, List.getElem?_eq_getElem hy]
  simp [List.getD_eq_getElem?_getD, List.getElem?_eq_getElem, hx, hy]

theorem ewmMean_length (α : ℚ) (xs : List ℚ) : (ewmMean α xs).length = xs.length := by
  simp [ewmMean]

theorem nth_ewmMean (α : ℚ) (xs : List ℚ) (i : ℕ) (hi : i < xs.length) :
    nth (ewmMean α xs) i = ewmAt α (nth xs) i := by
  unfold ewmMean
  exact nth_rangeMap _ _ i hi

theorem macdLineOf_eq (prices : List ℚ) (f s g : ℕ) (hf : 1 ≤ f) (hs : 1 ≤ s)
    (hg : 1 ≤ g) (i : ℕ) (hi : i < prices.length) :
    nth (macdLineOf prices f s g) i
      = ewmAt (2 / ((f : ℚ) + 1)) (nth prices) i
        - ewmAt (2 / ((s : ℚ) + 1)) (nth prices) i := by
  unfold macdLineOf calculate_macd calculate_ema
  rw [if_neg (by omega : ¬ f < 1), if_neg (by omega : ¬ s < 1)]
  simp only [ok_bind]
  rw [if_neg (by omega : ¬ g < 1)]
  show nth (List.zipWith (fun a b => a - b) (ewmMean (2 / ((f : ℚ) + 1)) prices)
    (ewmMean (2 / ((s : ℚ) + 1)) prices)) i = _
  rw [nth_zipWith_sub _ _ i (by rw [ewmMean_length]; omega) (by rw [ewmMean_length]; omega),
    nth_ewmMean _ _ i hi, nth_ewmMean _ _ i hi]

theorem ewmAt_le_of_mono (x : ℕ → ℚ) (α : ℚ) (h1 : α ≤ 1) (n : ℕ)
    (hmono : ∀ j, j + 1 < n → x j ≤ x (j + 1)) :
    ∀ i, i < n → ewmAt α x i ≤ x i := by
  intro i
  induction i with
  | zero =>
    intro _
    unfold ewmAt
    exact le_refl _
  | succ j ih =>
    intro hn
    unfold ewmAt
    have hj : ewmAt α x j ≤ x j := ih (by omega)
    have hx : x j ≤ x (j + 1) := hmono j hn
    have hmul := mul_le_mul_of_nonneg_left (le_trans hj hx)
      (by linarith : (0 : ℚ) ≤ 1 - α)
    linarith

theorem ewm_fast_gt_slow (x : ℕ → ℚ) (α β : ℚ) (hαβ : β < α)
    (hα1 : α ≤ 1) (n : ℕ) (hmono : ∀ j, j + 1 < n → x j < x (j + 1)) :
    ∀ i, 1 ≤ i → i < n → ewmAt β x i < ewmAt α x i := by
  have hmono' : ∀ j, j + 1 < n → x j ≤ x (j + 1) := fun j hj => le_of_lt (hmono j hj)
  intro i
  induction i with
  | zero =>
    intro h
    omega
  | succ j ih =>
    intro _ hn
    unfold ewmAt
    have hxj : x j < x (j + 1) := hmono j hn
    rcases Nat.eq_zero_or_pos j with rfl | hj1
    · unfold ewmAt
      nlinarith
    · have hlt : ewmAt β x j < ewmAt α x j := ih hj1 (by omega)
      have hle : ewmAt β x j ≤ x j :=
        ewmAt_le_of_mono x β (by linarith) n hmono' j (by omega)
      have h1 : 0 ≤ (1 - α) * (ewmAt α x j - ewmAt β x j) :=
        mul_nonneg (by linarith) (by linarith)
      have h2 : 0 < (α - β) * (x (j + 1) - ewmAt β x j) :=
        mul_pos (by linarith) (by linarith)
      nlinarith

/-- A 40-bar strictly increasing close series: a large jump, then small
steps. -/
def prices40 : List ℚ := [1, 1000, 1001, 1002, 1003, 1004, 1005, 1006, 1007, 1008, 1009, 1010, 1011, 1012, 1013, 1014, 1015, 1016, 1017, 1018, 1019, 1020, 1021, 1022, 1023, 1024, 1025, 1026, 1027, 1028, 1029, 1030, 1031, 1032, 1033, 1034, 1035, 1036, 1037, 1038]

/-- C9 counterexample: on the 40-bar strictly increasing series
`prices40` (a jump of 999 then unit steps), the MACD(12, 26, 9) line is
not increasing past the warm-up region: it decreases from index 38 to
index 39 (the faster EMA converges back to the price sooner than the
slower EMA, so the gap decays). -/
theorem macd_line_not_increasing :
    prices40.length = 40
    ∧ List.Chain' (fun a b => a < b) prices40
    ∧ nth (macdLineOf prices40 12 26 9) 39 < nth (macdLineOf prices40 12 26 9) 38 := by
  refine ⟨by decide, ?_, ?_⟩
  · norm_num [prices40, List.chain'_cons]
  · rw [macdLineOf_eq prices40 12 26 9 (by norm_num) (by norm_num) (by norm_num) 39 (by decide),
      macdLineOf_eq prices40 12 26 9 (by norm_num) (by norm_num) (by norm_num) 38 (by decide)]
    norm_num [ewmAt, prices40, nth]

/-- C9 (amended): on every strictly increasing close series the
MACD(12, 26, 9) line is strictly positive at every index `≥ 1` (in
particular at every index past the warm-up region), because the faster
EMA stays strictly above the slower one; the line need not be
increasing. -/
theorem macd_line_positive (prices : List ℚ)
    (hmono : ∀ j, j + 1 < prices.length → nth prices j < nth prices (j + 1)) :
    ∀ i, 1 ≤ i → i < prices.length → 0 < nth (macdLineOf prices 12 26 9) i := by
  intro i h1 hi
  rw [macdLineOf_eq prices 12 26 9 (by norm_num) (by norm_num) (by norm_num) i hi]
  have h := ewm_fast_gt_slow (nth prices) (2 / ((12 : ℚ) + 1)) (2 / ((26 : ℚ) + 1))
    (by norm_num) (by norm_num) prices.length hmono i h1 hi
  have hc12 : ((12 : ℕ) : ℚ) = 12 := by norm_num
  have hc26 : ((26 : ℕ) : ℚ) = 26 := by norm_num
  rw [hc12, hc26]
  linarith

/-- Witness for C9 (amended) on the 3-bar series `[1, 2, 3]` at index 2. -/
theorem macd_line_positive_witness : 0 < nth (macdLineOf [1, 2, 3] 12 26 9) 2 := by
  refine macd_line_positive [1, 2, 3] ?_ 2 (by norm_num) (by norm_num)
  intro j hj
  rw [show ([1, 2, 3] : List ℚ).length = 3 from rfl] at hj
  have hub : j < 2 := by omega
  interval_cases j <;> norm_num [nth]

end ChartEngine
